import Mathlib

/-!
# scanhub: statistics aggregator, scan orchestrator and request handlers

A shallow embedding of `internal/api/handlers.go` and `internal/scanner/scanner.go`.

* Package-level variables of `handlers.go` become the fields of `Stats`, passed explicitly.
* Every call of `time.Now()` becomes an explicit `Time` argument, which carries the
  process-local `Location`; a location is given by its zone lookup.
* Go's `int64` / `int` are integers in the 64-bit two's-complement range with wrap-around
  addition (`Int64`).
* A Go `map[string]int` is an association list with distinct keys (`AList`); the `nil` map is
  `none`.  Reading a `nil` map yields the zero value, writing to it panics.
* Library calls (`time`, `go-cache`, `encoding/json`, `regexp`, `strings`) are modelled by small
  executable functions that follow the documented behaviour of the call as it is used here.
-/

namespace ScanHub

/-! ## Machine integers -/

/-- Two's-complement reduction of an integer to the `int64` range. -/
def wrap64 (x : Int) : Int :=
  (x + 9223372036854775808) % 18446744073709551616 - 9223372036854775808

/-- Go's `int64`, also Go's `int` on a 64-bit platform. -/
abbrev Int64 : Type :=
  { n : Int // -9223372036854775808 ≤ n ∧ n < 9223372036854775808 }

/-- Reduce an integer into `int64` (what the machine does on overflow). -/
def Int64.ofInt (x : Int) : Int64 :=
  ⟨wrap64 x, by unfold wrap64; omega⟩

/-- Machine addition `a + b` on `int64`. -/
def Int64.add (a b : Int64) : Int64 :=
  Int64.ofInt (a.val + b.val)

/-- The zero value of `int64`. -/
def Int64.zero : Int64 := ⟨0, by omega⟩

/-- The constant `1`. -/
def Int64.one : Int64 := ⟨1, by omega⟩

/-! ## `time` -/

/-- The zone in force over a stretch of time, as `Location.lookup` reports it: the offset
in seconds east of UTC, the first second of the stretch and the first second after it (Go's
`offset`, `start` and `end`). -/
structure ZoneSpan where
  offset : Int
  start : Int
  stop : Int
deriving DecidableEq

/-- A `time.Location`, given by its method `lookup`: the zone in force at an instant in
seconds since the Unix epoch. -/
structure Location where
  lookup : Int → ZoneSpan

/-- The location `time.UTC`. -/
def UTC : Location :=
  { lookup := fun _ => { offset := 0, start := -9223372036854775808,
                         stop := 9223372036854775807 } }

/-- A `time.Time`: the instant in nanoseconds since the Unix epoch and the location it is
shown in. A reading of `time.Now()` carries the process-local location. -/
structure Time where
  unixNano : Int
  loc : Location

/-- The offset of the zone in force at the instant of `t`, in seconds east of UTC. -/
def Time.zoneOffset (t : Time) : Int :=
  (t.loc.lookup (t.unixNano / 1000000000)).offset

/-- Seconds since the epoch on the local wall clock. -/
def Time.localSeconds (t : Time) : Int :=
  t.unixNano / 1000000000 + t.zoneOffset

/-- Number of the local calendar day, counted from 1970-01-01 = 0. -/
def Time.localDay (t : Time) : Int :=
  t.localSeconds / 86400

/-- The call `t.UnixNano()`. -/
def Time.UnixNano (t : Time) : Int := t.unixNano

/-- The call `t.Add(d)` for a duration of `d` nanoseconds. -/
def Time.Add (t : Time) (d : Int) : Time :=
  { t with unixNano := t.unixNano + d }

/-- The call `time.Date(year, month, day, hour, min, sec, nsec, loc)` for the calendar day
with number `day` (counted from 1970-01-01 = 0) and the wall clock `secOfDay` seconds after
midnight; the normalisation of year, month and day is the arithmetic of day numbers. The
wall clock is first read as if it were UTC; the zone in force at that instant gives a
candidate offset, and when the instant corrected by it falls outside that zone's stretch the
offset of the zone in force at the corrected instant is taken instead. -/
def Date (day secOfDay nsec : Int) (loc : Location) : Time :=
  let unix := day * 86400 + secOfDay
  let zone := loc.lookup unix
  let unix :=
    if zone.offset ≠ 0 then
      let utc := unix - zone.offset
      let offset :=
        if utc < zone.start ∨ utc ≥ zone.stop then (loc.lookup utc).offset else zone.offset
      unix - offset
    else unix
  { unixNano := unix * 1000000000 + nsec, loc := loc }

/-- The call `t.AddDate(0, 0, days)`: `time.Date` of the local date of `t` with `days` added
to the day, the local clock of `t` and the location of `t`. -/
def Time.AddDate (t : Time) (days : Int) : Time :=
  Date (t.localDay + days) (t.localSeconds % 86400) (t.unixNano % 1000000000) t.loc

/-- Proleptic Gregorian (year, month, day) of a day number counted from 1970-01-01. -/
def civilFromDays (day : Int) : Int × Int × Int :=
  let z := day + 719468
  let era := z / 146097
  let doe := z - era * 146097
  let yoe := (doe - doe / 1460 + doe / 36524 - doe / 146096) / 365
  let doy := doe - (365 * yoe + yoe / 4 - yoe / 100)
  let mp := (5 * doy + 2) / 153
  let d := doy - (153 * mp + 2) / 5 + 1
  let m := if mp < 10 then mp + 3 else mp - 9
  let y := yoe + era * 400 + (if m ≤ 2 then 1 else 0)
  (y, m, d)

/-- The decimal digits of `x`, zero-padded to `width`, with a leading `-` when negative
(`appendInt` of package `time`). -/
def appendInt (x : Int) (width : Nat) : List Char :=
  let ds := Nat.toDigits 10 x.natAbs
  let padded := List.replicate (width - ds.length) '0' ++ ds
  if x < 0 then '-' :: padded else padded

/-- The text of a calendar day in layout `"2006-01-02"`. -/
def formatDay (day : Int) : String :=
  let (y, m, d) := civilFromDays day
  String.mk (appendInt y 4 ++ '-' :: appendInt m 2 ++ '-' :: appendInt d 2)

/-- The call `t.Format("2006-01-02")`. -/
def Time.FormatDate (t : Time) : String :=
  formatDay t.localDay

/-- The zone suffix of layout `Z07:00`. -/
def formatZone (offset : Int) : List Char :=
  if offset = 0 then ['Z']
  else
    let a := offset.natAbs / 60
    (if offset < 0 then '-' else '+') ::
      (appendInt (Int.ofNat (a / 60)) 2 ++ ':' :: appendInt (Int.ofNat (a % 60)) 2)

/-- The call `t.Format(time.RFC3339)`, layout `"2006-01-02T15:04:05Z07:00"`. -/
def Time.FormatRFC3339 (t : Time) : String :=
  let sod := t.localSeconds % 86400
  String.mk ((formatDay t.localDay).data ++ 'T' ::
    appendInt (sod / 3600) 2 ++ ':' :: appendInt (sod % 3600 / 60) 2 ++ ':' ::
    appendInt (sod % 60) 2 ++ formatZone t.zoneOffset)

/-! ## Maps -/

/-- The entries of an initialized `map[string]int`. -/
abbrev DailyMap : Type := AList (fun _ : String => Int64)

/-- A Go value of type `map[string]int`: `none` is the `nil` map. -/
abbrev GoMap : Type := Option DailyMap

/-- The index expression `m[k]`: the zero value when the key is missing or the map is `nil`. -/
def GoMap.index (m : GoMap) (k : String) : Int64 :=
  match m with
  | none => Int64.zero
  | some d => (d.lookup k).getD Int64.zero

/-- The entry stored under `k`, if any. -/
def GoMap.find (m : GoMap) (k : String) : Option Int64 :=
  match m with
  | none => none
  | some d => d.lookup k

/-- The assignment `m[k] = v`; assignment to an entry of a `nil` map panics. -/
def GoMap.assign (m : GoMap) (k : String) (v : Int64) : Option GoMap :=
  match m with
  | none => none
  | some d => some (some (d.insert k v))

/-- The idiom `c := make(map[string]int); for k, v := range m { c[k] = v }`. Ranging over a
`nil` map runs no iteration. -/
def GoMap.copy (m : GoMap) : DailyMap :=
  match m with
  | none => ∅
  | some d => d.entries.foldl (fun c e => c.insert e.1 e.2) ∅

/-- The sum of all bucket counts, as a mathematical integer. -/
def GoMap.total (m : GoMap) : Int :=
  match m with
  | none => 0
  | some d => (d.entries.map (fun e => e.2.val)).sum

/-! ## `models` -/

/-- Go type `models.DailyScanCount`. -/
structure DailyScanCount where
  Date : String
  Count : Int64
deriving DecidableEq

/-- Go type `models.StatsResponse`. -/
structure StatsResponse where
  TotalScans : Int64
  LastScanTime : String
  ScansPerDay : List DailyScanCount
deriving DecidableEq

/-! ## The statistics aggregator (`handlers.go`) -/

/-- An item of the `go-cache` store: the cached object and its expiration in Unix
nanoseconds (`0` or less: never expires). -/
structure CacheItem where
  Object : StatsResponse
  Expiration : Int
deriving DecidableEq

/-- The default expiration of `dailyStatsCache`: `5*time.Minute` in nanoseconds. -/
def defaultExpiration : Int := 5 * 60 * 1000000000

/-- The package-level variables of `handlers.go`. `dailyStatsCache` holds the item stored
under the only key in use, `"last_7_days"`. -/
structure Stats where
  atomicTotalScans : Int64
  lastScanTime : String
  dailyScans : GoMap
  dailyStatsCache : Option CacheItem

/-- The variables as initialized by the `var` block and `init` before `loadStats` runs. -/
def Stats.initial : Stats :=
  { atomicTotalScans := Int64.zero
    lastScanTime := ""
    dailyScans := some ∅
    dailyStatsCache := none }

/-- The call `dailyStatsCache.Get("last_7_days")` read at instant `now`. -/
def cacheGet (c : Option CacheItem) (now : Time) : Option StatsResponse :=
  match c with
  | none => none
  | some item =>
    if item.Expiration > 0 ∧ now.UnixNano > item.Expiration then none
    else some item.Object

/-- The call `dailyStatsCache.Set("last_7_days", x, cache.DefaultExpiration)` executed at `now`. -/
def cacheSet (x : StatsResponse) (now : Time) : Option CacheItem :=
  some { Object := x, Expiration := (now.Add defaultExpiration).UnixNano }

/-- The entry appended by one iteration of the loop of `GetStats`. -/
def dayEntry (today : Time) (dailyScansCopy : DailyMap) (i : Nat) : DailyScanCount :=
  let date := today.AddDate (-(i : Int))
  let dateStr := date.FormatDate
  { Date := dateStr, Count := GoMap.index (some dailyScansCopy) dateStr }

/-- The loop `for i := 6; i >= 0; i-- { scansPerDay = append(scansPerDay, ...) }`, entered
with counter `i` and slice `scansPerDay`. -/
def scansPerDayLoop (today : Time) (dailyScansCopy : DailyMap) :
    Nat → List DailyScanCount → List DailyScanCount
  | 0, scansPerDay => scansPerDay ++ [dayEntry today dailyScansCopy 0]
  | i + 1, scansPerDay =>
    scansPerDayLoop today dailyScansCopy i (scansPerDay ++ [dayEntry today dailyScansCopy (i + 1)])

/-- The part of `GetStats` after a cache miss, up to the construction of `response`. -/
def computeStats (s : Stats) (today : Time) : StatsResponse :=
  let totalScans := s.atomicTotalScans
  let scanTime := s.lastScanTime
  let dailyScansCopy := s.dailyScans.copy
  let scansPerDay := scansPerDayLoop today dailyScansCopy 6 []
  { TotalScans := totalScans, LastScanTime := scanTime, ScansPerDay := scansPerDay }

/-- The handler `GetStats`. `tGet` is the clock read inside `dailyStatsCache.Get`, `today`
the reading `today := time.Now()`, `tSet` the clock read inside `dailyStatsCache.Set`.
Returns the variables afterwards and the body of the 200 response. -/
def GetStats (s : Stats) (tGet today tSet : Time) : Stats × StatsResponse :=
  match cacheGet s.dailyStatsCache tGet with
  | some cachedStats => (s, cachedStats)
  | none =>
    let response := computeStats s today
    ({ s with dailyStatsCache := cacheSet response tSet }, response)

/-- The function `updateScanStats`, without the detached `saveStats` goroutine (see
`saveStats`). `t1` is the clock reading formatted into `currentTimeStr`, `t2` the reading
formatted into `dateStr`. The result is `none` when the function panics, which happens at
`dailyScans[dateStr]++` when `dailyScans` is the `nil` map. -/
def updateScanStats (s : Stats) (t1 t2 : Time) : Option Stats :=
  let total := Int64.add s.atomicTotalScans Int64.one
  let currentTimeStr := t1.FormatRFC3339
  let dateStr := t2.FormatDate
  match s.dailyScans.assign dateStr (Int64.add (s.dailyScans.index dateStr) Int64.one) with
  | none => none
  | some m =>
    some { atomicTotalScans := total
           lastScanTime := currentTimeStr
           dailyScans := m
           dailyStatsCache := none }

/-- A sequence of recordings, each with its two clock readings, run one after the other. -/
def recordAll (s : Stats) : List (Time × Time) → Option Stats
  | [] => some s
  | t :: rest =>
    match updateScanStats s t.1 t.2 with
    | none => none
    | some s1 => recordAll s1 rest

/-! ## Persistence (`handlers.go`, `encoding/json`, `os`) -/

/-- Go type `persistentStats`. -/
structure persistentStats where
  TotalScans : Int64
  LastScanTime : String
  DailyScans : GoMap

/-- The zero value of `persistentStats` (`var stats persistentStats`). -/
def persistentStats.zero : persistentStats :=
  { TotalScans := Int64.zero, LastScanTime := "", DailyScans := none }

/-- A JSON value that is not an object: `null`, an integer literal, a string, or anything
else (booleans, arrays, numbers with a fraction or exponent). -/
inductive JsonScalar where
  | null
  | number (n : Int)
  | string (s : String)
  | other
deriving DecidableEq

/-- A JSON value found under a key of the stats document. The members of an inner object
are kept in document order. -/
inductive JsonValue where
  | scalar (v : JsonScalar)
  | object (members : List (String × JsonScalar))
deriving DecidableEq

/-- The first JSON value of a document. -/
inductive JsonDoc where
  | null
  | object (members : List (String × JsonValue))
  | other
deriving DecidableEq

/-- The bytes of a file: a JSON document, or something `encoding/json` cannot parse (a
truncated or empty file, for example). -/
inductive FileContent where
  | invalid
  | json (doc : JsonDoc)
deriving DecidableEq

/-- The JSON encoding of a `map[string]int`: `null` for the `nil` map, otherwise an object
whose keys are sorted (lexicographically by code point, which is the byte order of UTF-8). -/
def encodeDailyScans (m : GoMap) : JsonValue :=
  match m with
  | none => JsonValue.scalar JsonScalar.null
  | some d =>
    JsonValue.object
      ((d.entries.insertionSort (fun a b => a.1.data ≤ b.1.data)).map
        (fun e => (e.1, JsonScalar.number e.2.val)))

/-- The call `encoder.Encode(stats)`: the members follow the field order and the `json` tags of
`persistentStats`. -/
def encodeStats (stats : persistentStats) : JsonDoc :=
  JsonDoc.object
    [("totalScans", JsonValue.scalar (JsonScalar.number stats.TotalScans.val)),
     ("lastScanTime", JsonValue.scalar (JsonScalar.string stats.LastScanTime)),
     ("dailyScans", encodeDailyScans stats.DailyScans)]

/-- Simple case folding of the runes that can fold to an ASCII letter. -/
def foldRune (c : Char) : Char :=
  if 'A' ≤ c ∧ c ≤ 'Z' then Char.ofNat (c.toNat + 32)
  else if c = Char.ofNat 0x17F then 's'
  else if c = Char.ofNat 0x212A then 'k'
  else c

/-- Case-insensitive comparison of an object key with a field name, as the decoder does. -/
def equalFold (key name : String) : Bool :=
  key.data.map foldRune = name.data.map foldRune

/-- The fields of `persistentStats`. -/
inductive StatsField where
  | TotalScans
  | LastScanTime
  | DailyScans
deriving DecidableEq

/-- The field an object key is decoded into, if any. -/
def matchField (key : String) : Option StatsField :=
  if equalFold key "totalScans" then some StatsField.TotalScans
  else if equalFold key "lastScanTime" then some StatsField.LastScanTime
  else if equalFold key "dailyScans" then some StatsField.DailyScans
  else none

/-- Decoding a JSON value into an integer variable holding `cur`: `null` leaves it alone, an
integer literal in range is stored, anything else is an error. -/
def decodeInt (v : JsonScalar) (cur : Int64) : Except String Int64 :=
  match v with
  | JsonScalar.null => Except.ok cur
  | JsonScalar.number n =>
    if h : -9223372036854775808 ≤ n ∧ n < 9223372036854775808 then Except.ok ⟨n, h⟩
    else Except.error "json: cannot unmarshal number into Go value of type int"
  | _ => Except.error "json: cannot unmarshal value into Go value of type int"

/-- Decoding the members of a JSON object into the map `m`, in document order. -/
def decodeMapMembers (m : DailyMap) : List (String × JsonScalar) → Except String DailyMap
  | [] => Except.ok m
  | (k, v) :: rest =>
    match decodeInt v Int64.zero with
    | Except.error e => Except.error e
    | Except.ok elem => decodeMapMembers (m.insert k elem) rest

/-- Decoding one member of the document into `stats`. -/
def decodeMember (stats : persistentStats) (member : String × JsonValue) :
    Except String persistentStats :=
  match matchField member.1 with
  | none => Except.ok stats
  | some StatsField.TotalScans =>
    match member.2 with
    | JsonValue.scalar v =>
      match decodeInt v stats.TotalScans with
      | Except.error e => Except.error e
      | Except.ok n => Except.ok { stats with TotalScans := n }
    | JsonValue.object _ =>
      Except.error "json: cannot unmarshal object into Go struct field totalScans"
  | some StatsField.LastScanTime =>
    match member.2 with
    | JsonValue.scalar JsonScalar.null => Except.ok stats
    | JsonValue.scalar (JsonScalar.string s) => Except.ok { stats with LastScanTime := s }
    | _ => Except.error "json: cannot unmarshal value into Go struct field lastScanTime"
  | some StatsField.DailyScans =>
    match member.2 with
    | JsonValue.scalar JsonScalar.null => Except.ok { stats with DailyScans := none }
    | JsonValue.object members =>
      match decodeMapMembers (stats.DailyScans.getD ∅) members with
      | Except.error e => Except.error e
      | Except.ok m => Except.ok { stats with DailyScans := some m }
    | _ => Except.error "json: cannot unmarshal value into Go struct field dailyScans"

/-- Decoding the members of the document one after the other. -/
def decodeMembers (stats : persistentStats) :
    List (String × JsonValue) → Except String persistentStats
  | [] => Except.ok stats
  | member :: rest =>
    match decodeMember stats member with
    | Except.error e => Except.error e
    | Except.ok stats1 => decodeMembers stats1 rest

/-- The call `json.NewDecoder(file).Decode(&stats)` on a fresh `stats`. -/
def decodeStats (content : FileContent) : Except String persistentStats :=
  match content with
  | FileContent.invalid => Except.error "invalid character"
  | FileContent.json JsonDoc.null => Except.ok persistentStats.zero
  | FileContent.json (JsonDoc.object members) => decodeMembers persistentStats.zero members
  | FileContent.json JsonDoc.other =>
    Except.error "json: cannot unmarshal value into Go value of type api.persistentStats"

/-- The two files `saveStats` and `loadStats` touch: `scanner_stats.json` and
`scanner_stats.json.tmp`; `none` when the file does not exist. -/
structure Disk where
  statsFile : Option FileContent
  tmpFile : Option FileContent

/-- The step of `saveStats` at which the operating system reports an error, if any. -/
inductive SaveFault where
  | mkdirAll
  | create
  | encode
  | close
  | rename
deriving DecidableEq

/-- The function `saveStats`: the disk afterwards and the returned error (`none` for `nil`).
A temporary file left behind by a failed write is taken to hold an incomplete document. -/
def saveStats (s : Stats) (disk : Disk) (fault : Option SaveFault) : Disk × Option String :=
  let stats : persistentStats :=
    { TotalScans := s.atomicTotalScans
      LastScanTime := s.lastScanTime
      DailyScans := some s.dailyScans.copy }
  match fault with
  | some SaveFault.mkdirAll => (disk, some "erreur lors de la création du répertoire")
  | some SaveFault.create => (disk, some "erreur lors de la création du fichier stats")
  | some SaveFault.encode =>
    ({ disk with tmpFile := some FileContent.invalid },
      some "erreur lors de l'encodage des stats")
  | some SaveFault.close =>
    ({ disk with tmpFile := some FileContent.invalid },
      some "erreur lors de la fermeture du fichier stats")
  | some SaveFault.rename =>
    ({ disk with tmpFile := some (FileContent.json (encodeStats stats)) },
      some "erreur lors du renommage du fichier stats")
  | none =>
    ({ statsFile := some (FileContent.json (encodeStats stats)), tmpFile := none }, none)

/-- The function `loadStats`: the variables afterwards and the returned error (`none` for
`nil`). `openFails` tells whether `os.Open` reports an error. -/
def loadStats (s : Stats) (disk : Disk) (openFails : Bool) : Stats × Option String :=
  match disk.statsFile with
  | none => (s, none)
  | some content =>
    if openFails then (s, some "erreur lors de l'ouverture du fichier stats")
    else
      match decodeStats content with
      | Except.error _ => (s, some "erreur lors du décodage du fichier stats")
      | Except.ok stats =>
        ({ s with
            atomicTotalScans := stats.TotalScans
            lastScanTime := stats.LastScanTime
            dailyScans := stats.DailyScans }, none)

/-! ## The scan orchestrator (`scanner.go`) -/

/-- Go type `Scanner`. -/
structure Scanner where
  TrivyServerURL : String
  RegistryURL : String
  GitlabToken : String
  GitlabURL : String
deriving DecidableEq

/-- Go type `Vulnerability` of package `scanner`. -/
structure Vulnerability where
  VulnerabilityID : String
  PkgName : String
  InstalledVersion : String
  FixedVersion : String
  Title : String
  Description : String
  Severity : String
deriving DecidableEq

/-- An element of `ScanResult.Results`. -/
structure TargetResult where
  Target : String
  Vulnerabilities : List Vulnerability
deriving DecidableEq

/-- Go type `ScanResult`. -/
structure ScanResult where
  Results : List TargetResult
  ImageSize : String
  Layers : Int64
deriving DecidableEq

/-- A Go `error` value returned by the scanner: one of the two context errors, or an error
made by `fmt.Errorf` with the given text. -/
inductive GoError where
  | contextCanceled
  | deadlineExceeded
  | errorf (msg : String)
deriving DecidableEq

/-- The function `NewScanner`. -/
def NewScanner (trivyURL registryURL _gitlabToken : String) : Scanner :=
  { TrivyServerURL := trivyURL
    RegistryURL := registryURL
    GitlabToken := ""
    GitlabURL := "" }

/-! ### `strings` and `regexp`

Positions count characters. The substrings searched for in this program are ASCII, so a
position found here and the byte offset found by Go delimit the same text. -/

/-- Position of the first occurrence of `sub` in `s`. -/
def indexOf (sub : List Char) : List Char → Option Nat
  | [] => if sub = [] then some 0 else none
  | c :: cs =>
    if sub.isPrefixOf (c :: cs) then some 0 else (indexOf sub cs).map (fun i => i + 1)

/-- Position of the last occurrence of `sub` in `s`. -/
def lastIndexOf (sub : List Char) : List Char → Option Nat
  | [] => if sub = [] then some 0 else none
  | c :: cs =>
    match lastIndexOf sub cs with
    | some i => some (i + 1)
    | none => if sub.isPrefixOf (c :: cs) then some 0 else none

/-- The call `strings.Index(s, substr)`: `-1` when `substr` does not occur. -/
def stringsIndex (s substr : String) : Int :=
  match indexOf substr.data s.data with
  | some i => (i : Int)
  | none => -1

/-- The call `strings.LastIndex(s, substr)`: `-1` when `substr` does not occur. -/
def stringsLastIndex (s substr : String) : Int :=
  match lastIndexOf substr.data s.data with
  | some i => (i : Int)
  | none => -1

/-- The call `strings.Contains(s, substr)`. -/
def stringsContains (s substr : String) : Bool :=
  decide (stringsIndex s substr ≥ 0)

/-- The call `strings.Join(elems, sep)`. -/
def stringsJoin (elems : List String) (sep : String) : String :=
  sep.intercalate elems

/-- The slice expression `s[lo:hi]`: a run-time panic (`none`) unless
`0 ≤ lo ≤ hi ≤ len(s)`. -/
def sliceString (s : String) (lo hi : Int) : Option String :=
  if 0 ≤ lo ∧ lo ≤ hi ∧ hi ≤ (s.data.length : Int) then
    some (String.mk ((s.data.drop lo.toNat).take (hi.toNat - lo.toNat)))
  else none

/-- A compiled regular expression of the shape `literal.+`, the shape of every pattern of
`extractErrorMessage`. -/
structure Regexp where
  literal : List Char
deriving DecidableEq

/-- The call `regexp.MustCompile(pattern)` for a pattern made of literal characters followed by
`.+`. -/
def MustCompile (pattern : String) : Regexp :=
  { literal := pattern.data.take (pattern.data.length - 2) }

/-- The leftmost match of `literal.+` in `s`: the first position where the literal is followed
by a character other than newline, and from there to the end of the line (`.` does not match
newline and `+` is greedy). -/
def findLeftmost (literal : List Char) : List Char → Option (List Char)
  | [] => none
  | c :: cs =>
    if literal.isPrefixOf (c :: cs) ∧
        (((c :: cs).drop literal.length).takeWhile (fun x => x ≠ '\n')) ≠ [] then
      some (literal ++ ((c :: cs).drop literal.length).takeWhile (fun x => x ≠ '\n'))
    else findLeftmost literal cs

/-- The call `re.FindString(s)`: the text of the leftmost match, or the empty string. -/
def Regexp.FindString (re : Regexp) (s : String) : String :=
  match findLeftmost re.literal s.data with
  | some m => String.mk m
  | none => ""

/-! ### Functions of `scanner.go` -/

/-- The loop `for _, pattern := range patterns` of `extractErrorMessage`, followed by
`return output`. -/
def extractLoop (output : String) : List String → String
  | [] => output
  | pattern :: rest =>
    let re := MustCompile pattern
    let m := re.FindString output
    if m ≠ "" then m else extractLoop output rest

/-- The function `extractErrorMessage`. -/
def extractErrorMessage (output : String) : String :=
  let patterns := ["error:.+", "failed.+", "Error:.+"]
  extractLoop output patterns

/-- The function `cleanJSONOutput`; `none` when the slice expression panics. -/
def cleanJSONOutput (output : String) : Option String :=
  let start := stringsIndex output "\x7b"
  if start = -1 then some output
  else
    let last := stringsLastIndex output "\x7d"
    if last = -1 then some output
    else sliceString output start (last + 1)

/-- The map `sensitiveFlags` of `redactSensitiveArgs`. -/
def sensitiveFlags (flag : String) : Bool :=
  flag = "--password"

/-- The loop `for i := 0; i < len(redactedArgs)-1; i++` with `n` iterations left to run and
counter `i`. -/
def redactLoop : Nat → Nat → List String → List String
  | 0, _, redactedArgs => redactedArgs
  | n + 1, i, redactedArgs =>
    if sensitiveFlags (redactedArgs.getD i "") then
      redactLoop n (i + 1) (redactedArgs.set (i + 1) "[REDACTED]")
    else redactLoop n (i + 1) redactedArgs

/-- The slice `redactedArgs` when the loop of `redactSensitiveArgs` has finished. -/
def redactedArgs (args : List String) : List String :=
  redactLoop (args.length - 1) 0 args

/-- The function `redactSensitiveArgs` on the two slices it works with: the caller's `args`,
which it only reads, and its own copy. Returns the caller's slice as it is afterwards and the
returned string. -/
def redactSensitiveArgs (args : List String) : List String × String :=
  (args, stringsJoin (redactedArgs args) " ")

/-- The slice `args` built by `ScanImageWithContext`. -/
def scanArgs (s : Scanner) (imagePath : String) : List String :=
  let args := ["image", "--server", s.TrivyServerURL, "--scanners", "vuln",
    "--severity", "CRITICAL,HIGH,MEDIUM,LOW", "--format", "json", "--quiet"]
  let args :=
    if stringsContains imagePath s.RegistryURL then
      args ++ ["--username", "gitlab-ci-token", "--password", s.GitlabToken]
    else args
  args ++ [imagePath]

/-- The slice `env` built by `ScanImageWithContext` from `os.Environ()` and
`os.Getenv("HOME")`. -/
def scanEnv (s : Scanner) (environ : List String) (home : String) : List String :=
  environ ++
    ["GITLAB_TOKEN=" ++ s.GitlabToken, "TRIVY_USERNAME=gitlab-ci-token",
     "TRIVY_PASSWORD=" ++ s.GitlabToken, "TRIVY_NON_SSL=true", "TRIVY_INSECURE=true",
     "TRIVY_DEBUG=true", "HOME=" ++ home]

/-- What is observed when `cmd.CombinedOutput()` returns: the error of the context at that
moment (`ctx.Err()`), the error of the command (`none` for exit status zero) and the combined
output. -/
structure EngineRun where
  ctxErr : Option GoError
  err : Option String
  output : String
deriving DecidableEq

/-- The return of a Go function with results `(*ScanResult, error)`, or a panic. -/
inductive ScanReturn where
  | panic
  | result (r : ScanResult)
  | error (e : GoError)
deriving DecidableEq

/-- The method `ScanImageWithContext`. `engine` stands for the run of `trivy` with the given
arguments and environment, `unmarshal` for `json.Unmarshal` into a `ScanResult`. -/
def ScanImageWithContext (s : Scanner) (environ : List String) (home : String)
    (engine : List String → List String → EngineRun)
    (unmarshal : String → Except String ScanResult) (imagePath : String) : ScanReturn :=
  let env := scanEnv s environ home
  let args := scanArgs s imagePath
  let run := engine args env
  match run.ctxErr with
  | some e => ScanReturn.error e
  | none =>
    match run.err with
    | some _ =>
      let errMsg := extractErrorMessage run.output
      ScanReturn.error (GoError.errorf ("scan error: " ++ errMsg))
    | none =>
      match cleanJSONOutput run.output with
      | none => ScanReturn.panic
      | some cleanOutput =>
        match unmarshal cleanOutput with
        | Except.error e => ScanReturn.error (GoError.errorf ("parse error: " ++ e))
        | Except.ok result => ScanReturn.result result

/-! ### Examples -/

/-- The daily map `{2024-01-01: 1, 2024-01-02: 1}`. -/
def exMap : DailyMap :=
  AList.insert "2024-01-02" Int64.one (AList.insert "2024-01-01" Int64.one ∅)

/-- An aggregate with two recorded scans and no cached view. -/
def exStats : Stats :=
  { atomicTotalScans := Int64.ofInt 2
    lastScanTime := "2024-01-02T12:00:00Z"
    dailyScans := some exMap
    dailyStatsCache := none }

/-- Noon UTC on 2024-01-01. -/
def exJan1 : Time := ⟨19723 * 86400 * 1000000000 + 43200 * 1000000000, UTC⟩

/-- Noon UTC on 2024-01-02. -/
def exNow : Time := ⟨19724 * 86400 * 1000000000 + 43200 * 1000000000, UTC⟩

/-- The aggregate `exStats` after one more recording at `exNow`. -/
def exRecorded : Stats :=
  { atomicTotalScans := Int64.ofInt 3
    lastScanTime := "2024-01-02T12:00:00Z"
    dailyScans := some (AList.insert "2024-01-02" (Int64.ofInt 2) exMap)
    dailyStatsCache := none }

/-- A scanner configuration with a credential. -/
def exScanner : Scanner :=
  { TrivyServerURL := "http://trivy:4954"
    RegistryURL := "registry.example.com"
    GitlabToken := "s3cr3t"
    GitlabURL := "" }

/-- The report without results. -/
def exReport : ScanResult :=
  { Results := [], ImageSize := "", Layers := Int64.zero }

/-- A stand-in for `json.Unmarshal` that accepts the document `{}` only. -/
def exUnmarshal (text : String) : Except String ScanResult :=
  if text = "\x7b\x7d" then Except.ok exReport else Except.error "unexpected end of JSON input"

/-- An engine run that exits with status zero and prints `{}` between two log lines. -/
def exEngineOk (_args _env : List String) : EngineRun :=
  { ctxErr := none, err := none, output := "INFO start\n\x7b\x7d\nINFO done" }

/-- An engine run with the same output that returns after the deadline of the context. -/
def exEngineLate (_args _env : List String) : EngineRun :=
  { ctxErr := some GoError.deadlineExceeded, err := none, output := "INFO start\n\x7b\x7d\nINFO done" }

/-- An engine run that exits with a non-zero status. -/
def exEngineFailed (_args _env : List String) : EngineRun :=
  { ctxErr := none, err := some "exit status 1", output := "FATAL error: no such image\n" }

/-- An engine run that exits with status zero and prints no JSON. -/
def exEngineNoise (_args _env : List String) : EngineRun :=
  { ctxErr := none, err := none, output := "nothing to report" }

/-! ### Invariants -/

/-- What holds of the aggregate after `n` recordings from the initial one: the daily map is
initialized, the counter is `n`, the buckets sum to `n`, and no bucket is negative. -/
def CountInv (n : Nat) (s : Stats) : Prop :=
  ∃ d : DailyMap, s.dailyScans = some d ∧ s.atomicTotalScans.val = n ∧
    (d.entries.map (fun e => e.2.val)).sum = n ∧ ∀ e ∈ d.entries, 0 ≤ e.2.val

/-! ### Statements about `extractErrorMessage` -/

/-- The error markers named by the specification. -/
def errorMarkers : List String := ["error:", "failed", "Error:"]

/-- The reading of the specification under test: the raw output when no marker occurs in it,
otherwise text that begins at the earliest occurrence of any marker; always a contiguous
substring of the output. -/
def ReturnsEarliestMarkerText (output : String) : Prop :=
  ((∀ m ∈ errorMarkers, indexOf m.data output.data = none) →
    extractErrorMessage output = output) ∧
  (∀ i, (∃ m ∈ errorMarkers, indexOf m.data output.data = some i) →
    (∀ m ∈ errorMarkers, ∀ j, indexOf m.data output.data = some j → i ≤ j) →
    (extractErrorMessage output).data <+: output.data.drop i) ∧
  (extractErrorMessage output).data <:+: output.data

/-- Somewhere in `out` the marker `lit` is followed by a character other than newline. -/
def HasMatch (lit out : List Char) : Prop :=
  ∃ pre c tail, out = pre ++ lit ++ c :: tail ∧ c ≠ '\n'

/-- The text `m` is the leftmost match of `lit.+` in `out`: the marker at the first place
where a character other than newline follows it, and the rest of that line. -/
def LeftmostMatch (lit out m : List Char) : Prop :=
  ∃ pre rest post, out = pre ++ lit ++ rest ++ post ∧ m = lit ++ rest ∧ rest ≠ [] ∧
    (∀ c ∈ rest, c ≠ '\n') ∧ (post = [] ∨ ∃ t, post = '\n' :: t) ∧
    ∀ pre2 c tail, out = pre2 ++ lit ++ c :: tail → c ≠ '\n' → pre.length ≤ pre2.length

/-- The effect of the loop of `redactSensitiveArgs` read off the list from left to right.
`prevSensitive` tells whether the element before the list, as the loop left it, is a sensitive
flag; such an element makes the loop overwrite the head. -/
def redactList (prevSensitive : Bool) : List String → List String
  | [] => []
  | a :: rest =>
    (if prevSensitive then "[REDACTED]" else a) ::
      redactList (sensitiveFlags (if prevSensitive then "[REDACTED]" else a)) rest

/-! ## The scan handler (`handlers.go`) -/

/-- Go type `config.Config`. -/
structure Config where
  TrivyServerURL : String
  RegistryURL : String
  GitlabToken : String
  GitlabURL : String
  NonSSL : Bool
  Insecure : Bool
  Debug : Bool
  Environment : String
deriving DecidableEq

/-- Go type `models.ScanRequest`. -/
structure ScanRequest where
  ImagePath : String
  Registry : String
deriving DecidableEq

/-- A response written to the client: the 400 of a malformed body, the 500 carrying the text
of the scan error, the 200 whose data is `transformScanResult` of the raw report for the
target, and the 408 of `TimeoutMiddleware`. -/
inductive Response where
  | invalidRequest
  | scanError (message : String)
  | success (target : String) (raw : ScanResult)
  | requestTimeout
deriving DecidableEq

/-- The method `Error()` of the errors returned by the scanner. -/
def GoError.Error : GoError → String
  | GoError.contextCanceled => "context canceled"
  | GoError.deadlineExceeded => "context deadline exceeded"
  | GoError.errorf msg => msg

/-- What the goroutines of one request observe of each other. `ctxDoneAtSend`: the context is
done when the scan goroutine reaches its `select`. `handlerTakesResult`: the `select` of the
handler receives from `resultChan` (otherwise it takes `ctx.Done()`). `timeoutReached`: the
value the handler then reads under the key `"timeoutReached"`. -/
structure Schedule where
  ctxDoneAtSend : Bool
  handlerTakesResult : Bool
  timeoutReached : Bool
deriving DecidableEq

/-- What the scan goroutine of `ScanImage` puts on `resultChan`: nothing when the context is
done at its `select`, which is the case whenever the context was already done when the engine
call returned. -/
def scanGoroutine (ctxErrAtReturn : Option GoError) (sched : Schedule) (ret : ScanReturn) :
    Option ScanReturn :=
  if ctxErrAtReturn.isSome || sched.ctxDoneAtSend then none else some ret

/-- The handler `ScanImage` for a request whose body binds to `body` (`none`: binding fails).
Returns the variables afterwards (`none`: the process has panicked) and the responses the
handler writes. `t1` and `t2` are the clock readings of `updateScanStats`. -/
def ScanImage (s : Stats) (body : Option ScanRequest) (cfg : Config) (environ : List String)
    (home : String) (engine : List String → List String → EngineRun)
    (unmarshal : String → Except String ScanResult) (sched : Schedule) (t1 t2 : Time) :
    Option Stats × List Response :=
  match body with
  | none => (some s, [Response.invalidRequest])
  | some req =>
    let scannerInstance := NewScanner cfg.TrivyServerURL cfg.RegistryURL cfg.GitlabToken
    let ret := ScanImageWithContext scannerInstance environ home engine unmarshal req.ImagePath
    let ctxErrAtReturn :=
      (engine (scanArgs scannerInstance req.ImagePath)
        (scanEnv scannerInstance environ home)).ctxErr
    match ret with
    | ScanReturn.panic => (none, [])
    | _ =>
      match scanGoroutine ctxErrAtReturn sched ret with
      | none => (some s, [])
      | some res =>
        if sched.handlerTakesResult then
          if sched.timeoutReached then
            match res with
            | ScanReturn.result _ => (updateScanStats s t1 t2, [])
            | _ => (some s, [])
          else
            match res with
            | ScanReturn.error e => (some s, [Response.scanError e.Error])
            | ScanReturn.result raw =>
              (updateScanStats s t1 t2, [Response.success req.ImagePath raw])
            | ScanReturn.panic => (none, [])
        else (some s, [])

/-- A configuration as `config.Get` builds it: only the server URL is set. -/
def exConfig : Config :=
  { TrivyServerURL := "http://trivy:4954"
    RegistryURL := ""
    GitlabToken := ""
    GitlabURL := ""
    NonSSL := false
    Insecure := false
    Debug := false
    Environment := "release" }

/-- A scan request. -/
def exRequest : ScanRequest :=
  { ImagePath := "alpine:3", Registry := "docker.io" }

/-- The handler receives the result and reads `timeoutReached = true`. -/
def exLateSchedule : Schedule :=
  { ctxDoneAtSend := false, handlerTakesResult := true, timeoutReached := true }

/-! ### Examples of stats files -/

/-- A stats file holding the document with the single member `"totalScans": 3`. -/
def exDiskNoDaily : Disk :=
  { statsFile := some (FileContent.json (JsonDoc.object
      [("totalScans", JsonValue.scalar (JsonScalar.number 3))]))
    tmpFile := none }

/-- A stats file whose document gives `"dailyScans"` as `null`. -/
def exDiskNullDaily : Disk :=
  { statsFile := some (FileContent.json (JsonDoc.object
      [("totalScans", JsonValue.scalar (JsonScalar.number 3)),
       ("lastScanTime", JsonValue.scalar (JsonScalar.string "2024-01-01T12:00:00Z")),
       ("dailyScans", JsonValue.scalar JsonScalar.null)]))
    tmpFile := none }

/-! ### Zones -/

/-- The zone of `t` keeps the offset `o`, less than a day in size, from 8 days before the
instant of `t` to 1 day after it: no zone transition falls in that window. -/
def SteadyZone (t : Time) (o : Int) : Prop :=
  -86400 < o ∧ o < 86400 ∧
    ∀ sec, t.unixNano / 1000000000 - 691200 ≤ sec → sec ≤ t.unixNano / 1000000000 + 86400 →
      (t.loc.lookup sec).offset = o

/-- The zone `America/Santiago` from September 2023 to April 2025: UTC-3 until
2024-04-07T03:00:00Z, UTC-4 until 2024-09-08T04:00:00Z, when local clocks went from 00:00 to
01:00, and UTC-3 after that. -/
def exSantiago : Location :=
  { lookup := fun sec =>
      if sec < 1712458800 then { offset := -10800, start := 1693713600, stop := 1712458800 }
      else if sec < 1725768000 then
        { offset := -14400, start := 1712458800, stop := 1725768000 }
      else { offset := -10800, start := 1725768000, stop := 1743908400 } }

/-- The instant 2024-09-08 12:00:00 in Santiago (15:00:00 UTC). -/
def exSantiagoNoon : Time := ⟨(19974 * 86400 + 54000) * 1000000000, exSantiago⟩

/-- The instant 2024-09-09 00:30:00 in Santiago (03:30:00 UTC). -/
def exSantiagoNight : Time := ⟨(19975 * 86400 + 12600) * 1000000000, exSantiago⟩

/-- The aggregate after one recording at noon of 2024-09-08 in Santiago. -/
def exSantiagoStats : Stats :=
  { atomicTotalScans := Int64.one
    lastScanTime := "2024-09-08T12:00:00-03:00"
    dailyScans := some (AList.insert "2024-09-08" Int64.one ∅)
    dailyStatsCache := none }

/-- The instant 2024-09-08 23:57:00 in Santiago. -/
def exSantiago2357 : Time := ⟨(19975 * 86400 + 10620) * 1000000000, exSantiago⟩

/-- The instant 2024-09-08 23:58:00 in Santiago. -/
def exSantiago2358 : Time := ⟨(19975 * 86400 + 10680) * 1000000000, exSantiago⟩

/-- The instant 2024-09-09 00:01:00 in Santiago. -/
def exSantiago0001 : Time := ⟨(19975 * 86400 + 10860) * 1000000000, exSantiago⟩

/-- The aggregate after a first query at 23:57 and one recording at 23:58 of 2024-09-08 in
Santiago. -/
def exSantiagoRecorded : Stats :=
  { atomicTotalScans := Int64.one
    lastScanTime := "2024-09-08T23:58:00-03:00"
    dailyScans := some (AList.insert "2024-09-08" Int64.one ∅)
    dailyStatsCache := none }

/-! ## The timeout middleware (`handlers.go`) -/

/-- The middleware `TimeoutMiddleware` around a handler. `deadlineFirst` tells that the
`select` of the middleware takes `ctx.Done()`, in which case it sets `"timeoutReached"` and
writes the 408 response; otherwise it takes `done` and returns. `next` is the outcome of
`c.Next()` on its goroutine: the variables afterwards and the responses the wrapped handler
writes, which it may write before or after the middleware has answered. The result lists all
responses written for the request, the handler's first. -/
def TimeoutMiddleware (deadlineFirst : Bool) (next : Option Stats × List Response) :
    Option Stats × List Response :=
  if deadlineFirst then (next.1, next.2 ++ [Response.requestTimeout]) else next

/-- The handler receives the result and reads `timeoutReached = false`. -/
def exRaceSchedule : Schedule :=
  { ctxDoneAtSend := false, handlerTakesResult := true, timeoutReached := false }

/-! # Lemmas and theorems -/

/-! ## The trailing-week view -/

theorem Date_of_offset (day secOfDay nsec : Int) (loc : Location) (o : Int)
    (h1 : (loc.lookup (day * 86400 + secOfDay)).offset = o)
    (h2 : (loc.lookup (day * 86400 + secOfDay - o)).offset = o) :
    Date day secOfDay nsec loc =
      { unixNano := (day * 86400 + secOfDay - o) * 1000000000 + nsec, loc := loc } := by
  simp only [Date, h1]
  by_cases ho : o = 0
  · subst ho
    simp
  · simp only [ne_eq, ho, not_false_eq_true, if_true, h2, ite_self]

theorem localDay_AddDate (t : Time) (o : Int) (h : SteadyZone t o) (i : Nat) (hi : i ≤ 6) :
    (t.AddDate (-(i : Int))).localDay = t.localDay - (i : Int) := by
  obtain ⟨hlo, hhi, hz⟩ := h
  have ho : t.zoneOffset = o := hz _ (by omega) (by omega)
  have hday : (t.localDay + -(i : Int)) * 86400 + t.localSeconds % 86400 =
      t.unixNano / 1000000000 + o - (i : Int) * 86400 := by
    simp only [Time.localDay, Time.localSeconds, ho]
    omega
  have h1 := hz (t.unixNano / 1000000000 + o - (i : Int) * 86400) (by omega) (by omega)
  have h2 := hz (t.unixNano / 1000000000 + o - (i : Int) * 86400 - o) (by omega) (by omega)
  have hdate := Date_of_offset (t.localDay + -(i : Int)) (t.localSeconds % 86400)
    (t.unixNano % 1000000000) t.loc o (by rw [hday]; exact h1) (by rw [hday]; exact h2)
  have hsec : ((t.unixNano / 1000000000 + o - (i : Int) * 86400 - o) * 1000000000 +
      t.unixNano % 1000000000) / 1000000000 = t.unixNano / 1000000000 - (i : Int) * 86400 := by
    omega
  have h3 := hz (t.unixNano / 1000000000 - (i : Int) * 86400) (by omega) (by omega)
  simp only [Time.AddDate, hdate, hday]
  simp only [Time.localDay, Time.localSeconds, Time.zoneOffset, hsec, h3]
  have ho2 : (t.loc.lookup (t.unixNano / 1000000000)).offset = o := ho
  rw [ho2]
  omega

theorem SteadyZone_UTC (n : Int) : SteadyZone ⟨n, UTC⟩ 0 :=
  ⟨by omega, by omega, fun _ _ _ => rfl⟩

theorem foldl_insert_lookup (l : List (Sigma fun _ : String => Int64)) (hl : l.NodupKeys)
    (acc : DailyMap) (k : String) :
    (l.foldl (fun c e => c.insert e.1 e.2) acc).lookup k =
      match List.dlookup k l with
      | some v => some v
      | none => acc.lookup k := by
  induction l generalizing acc with
  | nil => simp
  | cons e t ih =>
    rw [List.nodupKeys_cons] at hl
    rw [List.foldl_cons, ih hl.2]
    by_cases hk : k = e.1
    · subst hk
      have hnone : List.dlookup e.1 t = none := List.dlookup_eq_none.mpr hl.1
      obtain ⟨a, b⟩ := e
      rw [hnone, List.dlookup_cons_eq]
      simp
    · rw [List.dlookup_cons_ne _ _ hk, AList.lookup_insert_ne hk]

theorem GoMap.lookup_copy (m : GoMap) (k : String) : (m.copy).lookup k = m.find k := by
  cases m with
  | none => simp [GoMap.copy, GoMap.find]
  | some d =>
    simp only [GoMap.copy, GoMap.find]
    rw [foldl_insert_lookup _ d.nodupKeys]
    simp only [AList.lookup]
    cases h : List.dlookup k d.entries <;> simp [AList.lookup]

theorem GoMap.index_copy (m : GoMap) (k : String) :
    GoMap.index (some m.copy) k = m.index k := by
  cases m with
  | none => simp [GoMap.index, GoMap.copy]
  | some d =>
    have := GoMap.lookup_copy (some d) k
    simp only [GoMap.find] at this
    simp only [GoMap.index, this]

theorem GoMap.index_eq_find (m : GoMap) (k : String) :
    m.index k = (m.find k).getD Int64.zero := by
  cases m <;> rfl

theorem dayEntry_eq (s : Stats) (today : Time) (o : Int) (hz : SteadyZone today o)
    (i j : Nat) (h : i + j = 6) :
    dayEntry today s.dailyScans.copy i =
      { Date := formatDay (today.localDay - 6 + (j : Int))
        Count := (s.dailyScans.find (formatDay (today.localDay - 6 + (j : Int)))).getD
          Int64.zero } := by
  have hd : today.localDay - (i : Int) = today.localDay - 6 + (j : Int) := by omega
  simp only [dayEntry, Time.FormatDate, localDay_AddDate today o hz i (by omega), hd,
    GoMap.index_copy]
  rw [GoMap.index_eq_find]

theorem computeStats_ScansPerDay (s : Stats) (today : Time) (o : Int)
    (hz : SteadyZone today o) :
    (computeStats s today).ScansPerDay =
      (List.range 7).map (fun (j : Nat) =>
        ({ Date := formatDay (today.localDay - 6 + (j : Int))
           Count := (s.dailyScans.find (formatDay (today.localDay - 6 + (j : Int)))).getD
             Int64.zero } : DailyScanCount)) := by
  have hrange : List.range 7 = [0, 1, 2, 3, 4, 5, 6] := by decide
  simp only [computeStats, scansPerDayLoop, hrange, List.map, List.nil_append,
    List.cons_append]
  rw [dayEntry_eq s today o hz 6 0 rfl, dayEntry_eq s today o hz 5 1 rfl,
    dayEntry_eq s today o hz 4 2 rfl, dayEntry_eq s today o hz 3 3 rfl,
    dayEntry_eq s today o hz 2 4 rfl, dayEntry_eq s today o hz 1 5 rfl,
    dayEntry_eq s today o hz 0 6 rfl]

/-- The trailing week where the zone is steady: when no zone transition falls between 8 days
before and 1 day after the reading `today`, the view returned by `GetStats` on a cache miss
has exactly 7 entries; entry `j` (`j = 0..6`) carries the date of local day `D - 6 + j`,
where `D` is the local day of `today`, with the count recorded for that date in `dailyScans`,
zero when the date is not recorded; `TotalScans` and `LastScanTime` are the current values of
the aggregate. -/
theorem GetStats_trailing_week_steady_zone (s : Stats) (tGet today tSet : Time) (o : Int)
    (hz : SteadyZone today o) (hmiss : cacheGet s.dailyStatsCache tGet = none) :
    (GetStats s tGet today tSet).2.ScansPerDay.length = 7 ∧
    (GetStats s tGet today tSet).2.ScansPerDay =
      (List.range 7).map (fun (j : Nat) =>
        ({ Date := formatDay (today.localDay - 6 + (j : Int))
           Count := (s.dailyScans.find (formatDay (today.localDay - 6 + (j : Int)))).getD
             Int64.zero } : DailyScanCount)) ∧
    (GetStats s tGet today tSet).2.TotalScans = s.atomicTotalScans ∧
    (GetStats s tGet today tSet).2.LastScanTime = s.lastScanTime := by
  have hview : (GetStats s tGet today tSet).2 = computeStats s today := by
    simp only [GetStats, hmiss]
  rw [hview]
  refine ⟨?_, computeStats_ScansPerDay s today o hz, rfl, rfl⟩
  rw [computeStats_ScansPerDay s today o hz, List.length_map, List.length_range]

/-- The scenario of the specification, in UTC: with `{2024-01-01: 1, 2024-01-02: 1}` recorded
and the clock at 2024-01-02, the view is the 7 days 2023-12-27 .. 2024-01-02 with counts
0, 0, 0, 0, 0, 1, 1. -/
theorem GetStats_trailing_week_scenario :
    cacheGet exStats.dailyStatsCache exNow = none ∧
    (GetStats exStats exNow exNow exNow).2.ScansPerDay =
      [⟨"2023-12-27", Int64.zero⟩, ⟨"2023-12-28", Int64.zero⟩, ⟨"2023-12-29", Int64.zero⟩,
       ⟨"2023-12-30", Int64.zero⟩, ⟨"2023-12-31", Int64.zero⟩, ⟨"2024-01-01", Int64.one⟩,
       ⟨"2024-01-02", Int64.one⟩] :=
  ⟨by decide,
   (GetStats_trailing_week_steady_zone exStats exNow exNow exNow 0 (SteadyZone_UTC _)
      (by decide)).2.1.trans (by decide)⟩

/-- C1 at the failing input: the process runs in the zone of Santiago, where the local clocks
went from 2024-09-08 00:00 to 01:00, one scan is recorded under 2024-09-08 and the clock reads
2024-09-09 00:30. On a cache miss `today.AddDate(0, 0, -1)` asks for the wall clock
2024-09-08 00:30, which that day did not have, and comes out as 2024-09-07 23:30: the view has
7 entries but lists 2024-09-07 twice and 2024-09-08 not at all, so its dates are not the days
D-6..D and the scan of 2024-09-08 is shown under no date. -/
theorem C1_GetStats_repeats_date_at_zone_gap :
    exSantiagoNight.FormatDate = "2024-09-09" ∧
    (exSantiagoNight.AddDate (-1)).FormatRFC3339 = "2024-09-07T23:30:00-04:00" ∧
    cacheGet exSantiagoStats.dailyStatsCache exSantiagoNight = none ∧
    (GetStats exSantiagoStats exSantiagoNight exSantiagoNight exSantiagoNight).2.ScansPerDay =
      [⟨"2024-09-03", Int64.zero⟩, ⟨"2024-09-04", Int64.zero⟩, ⟨"2024-09-05", Int64.zero⟩,
       ⟨"2024-09-06", Int64.zero⟩, ⟨"2024-09-07", Int64.zero⟩, ⟨"2024-09-07", Int64.zero⟩,
       ⟨"2024-09-09", Int64.zero⟩] ∧
    (List.range 7).map (fun (j : Nat) => formatDay (exSantiagoNight.localDay - 6 + (j : Int))) =
      ["2024-09-03", "2024-09-04", "2024-09-05", "2024-09-06", "2024-09-07", "2024-09-08",
       "2024-09-09"] ∧
    exSantiagoStats.dailyScans.find "2024-09-08" = some Int64.one ∧
    ¬ ((GetStats exSantiagoStats exSantiagoNight exSantiagoNight exSantiagoNight).2.ScansPerDay =
      (List.range 7).map (fun (j : Nat) =>
        ({ Date := formatDay (exSantiagoNight.localDay - 6 + (j : Int))
           Count := (exSantiagoStats.dailyScans.find
             (formatDay (exSantiagoNight.localDay - 6 + (j : Int)))).getD Int64.zero }
          : DailyScanCount))) := by
  refine ⟨by decide, by decide, by decide, by decide, by decide, by decide, by decide⟩

/-! ## Recording scans -/

theorem wrap64_of_inRange (x : Int) (h1 : -9223372036854775808 ≤ x)
    (h2 : x < 9223372036854775808) : wrap64 x = x := by
  unfold wrap64; omega

theorem Int64.add_one_val (a : Int64) (h : a.val < 9223372036854775807) :
    (Int64.add a Int64.one).val = a.val + 1 := by
  have ha := a.property.1
  simp only [Int64.add, Int64.ofInt, Int64.one]
  exact wrap64_of_inRange _ (by omega) (by omega)

theorem sum_kerase (k : String) (l : List (Sigma fun _ : String => Int64)) :
    ((List.kerase k l).map (fun e => e.2.val)).sum =
      (l.map (fun e => e.2.val)).sum - ((List.dlookup k l).getD Int64.zero).val := by
  induction l with
  | nil => simp [Int64.zero]
  | cons e t ih =>
    obtain ⟨a, b⟩ := e
    by_cases h : k = a
    · subst h
      simp [List.kerase_cons_eq, List.dlookup_cons_eq]
    · rw [List.kerase_cons_ne h, List.dlookup_cons_ne _ _ h]
      simp only [List.map_cons, List.sum_cons, ih]
      omega

theorem CountInv_initial : CountInv 0 Stats.initial :=
  ⟨∅, rfl, rfl, rfl, by intro e he; cases he⟩

theorem bucket_bounds (d : DailyMap) (hpos : ∀ e ∈ d.entries, 0 ≤ e.2.val) (k : String) :
    0 ≤ ((d.lookup k).getD Int64.zero).val ∧
    ((d.lookup k).getD Int64.zero).val ≤ (d.entries.map (fun e => e.2.val)).sum := by
  have hsum : 0 ≤ (d.entries.map (fun e => e.2.val)).sum :=
    List.sum_nonneg (by
      intro x hx
      obtain ⟨e, he, rfl⟩ := List.mem_map.mp hx
      exact hpos e he)
  cases h : d.lookup k with
  | none => exact ⟨by simp [Int64.zero], by simpa [Int64.zero] using hsum⟩
  | some v =>
    have hmem : (⟨k, v⟩ : Sigma fun _ : String => Int64) ∈ d.entries :=
      AList.mem_lookup_iff.mp (by rw [h]; rfl)
    refine ⟨hpos _ hmem, ?_⟩
    simp only [Option.getD_some]
    apply List.single_le_sum
    · intro x hx
      obtain ⟨e, he, rfl⟩ := List.mem_map.mp hx
      exact hpos e he
    · exact List.mem_map.mpr ⟨⟨k, v⟩, hmem, rfl⟩

theorem updateScanStats_step (n : Nat) (s : Stats) (t1 t2 : Time) (hinv : CountInv n s)
    (hn : (n : Int) + 1 < 9223372036854775808) :
    ∃ s2, updateScanStats s t1 t2 = some s2 ∧ CountInv (n + 1) s2 ∧
      s2.atomicTotalScans.val = s.atomicTotalScans.val + 1 ∧
      (s2.dailyScans.index t2.FormatDate).val = (s.dailyScans.index t2.FormatDate).val + 1 ∧
      ∀ k, k ≠ t2.FormatDate → s2.dailyScans.find k = s.dailyScans.find k := by
  obtain ⟨d, hd, htot, hsum, hpos⟩ := hinv
  have hb := bucket_bounds d hpos t2.FormatDate
  have htot1 : (Int64.add s.atomicTotalScans Int64.one).val = s.atomicTotalScans.val + 1 :=
    Int64.add_one_val _ (by omega)
  have hcnt : (Int64.add ((d.lookup t2.FormatDate).getD Int64.zero) Int64.one).val =
      ((d.lookup t2.FormatDate).getD Int64.zero).val + 1 :=
    Int64.add_one_val _ (by omega)
  refine ⟨_, by simp only [updateScanStats, hd, GoMap.assign, GoMap.index]; rfl, ?_, htot1, ?_, ?_⟩
  · refine ⟨_, rfl, by rw [htot1, htot]; push_cast; rfl, ?_, ?_⟩
    · rw [AList.insert_entries, List.map_cons, List.sum_cons, sum_kerase]
      have hl : List.dlookup t2.FormatDate d.entries = d.lookup t2.FormatDate := rfl
      rw [hl, hsum]
      simp only [hcnt]
      push_cast
      omega
    · intro e he
      rw [AList.insert_entries, List.mem_cons] at he
      rcases he with rfl | he
      · simp only [hcnt]; omega
      · exact hpos e ((List.kerase_sublist _ _).subset he)
  · simp only [GoMap.index, hd, AList.lookup_insert, Option.getD_some, hcnt]
  · intro k hk
    simp only [GoMap.find, hd, AList.lookup_insert_ne hk]

theorem recordAll_append (s : Stats) (a b : List (Time × Time)) :
    recordAll s (a ++ b) = (recordAll s a).bind (fun s1 => recordAll s1 b) := by
  induction a generalizing s with
  | nil => rfl
  | cons t rest ih =>
    simp only [List.cons_append, recordAll]
    cases updateScanStats s t.1 t.2 with
    | none => rfl
    | some s1 => exact ih s1

theorem recordAll_inv (recs : List (Time × Time)) (n : Nat) (s : Stats) (hinv : CountInv n s)
    (hn : (n : Int) + recs.length < 9223372036854775808) :
    ∃ s2, recordAll s recs = some s2 ∧ CountInv (n + recs.length) s2 := by
  induction recs generalizing n s with
  | nil => exact ⟨s, rfl, hinv⟩
  | cons t rest ih =>
    simp only [List.length_cons, Nat.cast_add, Nat.cast_one] at hn
    obtain ⟨s1, h1, hinv1, -⟩ := updateScanStats_step n s t.1 t.2 hinv (by omega)
    obtain ⟨s2, h2, hinv2⟩ := ih (n + 1) s1 hinv1 (by push_cast; omega)
    refine ⟨s2, by simp only [recordAll, h1, h2], ?_⟩
    have : n + (rest.length + 1) = n + 1 + rest.length := by omega
    simpa only [List.length_cons, this] using hinv2

/-- C2: starting from the empty aggregate, any sequence of `N` recordings (with `N` below
`2^63`, the range of the counters) completes, and afterwards the total counter is `N` and the
daily buckets sum to `N`; moreover each recording of the sequence raises `totalScans` by
exactly 1, raises the bucket of its calendar date by exactly 1, and leaves every other bucket
as it was. -/
theorem C2_recordings_are_counted (recs : List (Time × Time))
    (hN : (recs.length : Int) < 9223372036854775808) :
    (∃ s, recordAll Stats.initial recs = some s ∧
      s.atomicTotalScans.val = recs.length ∧ s.dailyScans.total = recs.length) ∧
    (∀ pre t post, recs = pre ++ t :: post →
      ∃ s1 s2, recordAll Stats.initial pre = some s1 ∧
        updateScanStats s1 t.1 t.2 = some s2 ∧
        s2.atomicTotalScans.val = s1.atomicTotalScans.val + 1 ∧
        (s2.dailyScans.index t.2.FormatDate).val =
          (s1.dailyScans.index t.2.FormatDate).val + 1 ∧
        ∀ k, k ≠ t.2.FormatDate → s2.dailyScans.find k = s1.dailyScans.find k) := by
  constructor
  · obtain ⟨s, hs, d, hd, htot, hsum, -⟩ :=
      recordAll_inv recs 0 Stats.initial CountInv_initial (by simpa using hN)
    refine ⟨s, hs, by simpa using htot, ?_⟩
    simp only [GoMap.total, hd]
    simpa using hsum
  · intro pre t post hrecs
    have hlen : recs.length = pre.length + (post.length + 1) := by
      rw [hrecs, List.length_append, List.length_cons]
    obtain ⟨s1, h1, hinv1⟩ :=
      recordAll_inv pre 0 Stats.initial CountInv_initial (by rw [hlen] at hN; push_cast at hN ⊢; omega)
    obtain ⟨s2, h2, -, hrest⟩ :=
      updateScanStats_step (0 + pre.length) s1 t.1 t.2 hinv1
        (by rw [hlen] at hN; push_cast at hN ⊢; omega)
    exact ⟨s1, s2, h1, h2, hrest⟩

/-- C2 at a concrete sequence: one recording on 2024-01-01 and one on 2024-01-02. -/
theorem C2_recordings_are_counted_witness :
    ∃ s, recordAll Stats.initial [(exJan1, exJan1), (exNow, exNow)] = some s ∧
      s.atomicTotalScans.val = 2 ∧ s.dailyScans.total = 2 :=
  (C2_recordings_are_counted [(exJan1, exJan1), (exNow, exNow)] (by decide)).1

/-! ## The cached view -/

theorem cacheGet_of_not_expired (item : CacheItem) (now : Time)
    (h : now.UnixNano ≤ item.Expiration) : cacheGet (some item) now = some item.Object := by
  simp only [cacheGet]
  rw [if_neg]
  intro hc
  omega

theorem GetStats_cache_object (s : Stats) (tGet today tSet : Time) (item : CacheItem)
    (h : (GetStats s tGet today tSet).1.dailyStatsCache = some item) :
    item.Object = (GetStats s tGet today tSet).2 := by
  unfold GetStats at h ⊢
  cases hc : cacheGet s.dailyStatsCache tGet with
  | some v =>
    simp only [hc] at h ⊢
    simp only [cacheGet, h] at hc
    split at hc
    · cases hc
    · exact Option.some.inj hc
  | none =>
    simp only [hc, cacheSet] at h ⊢
    rw [← Option.some.inj h]

theorem updateScanStats_eq_some (s s2 : Stats) (t1 t2 : Time)
    (h : updateScanStats s t1 t2 = some s2) :
    ∃ d : DailyMap, s.dailyScans = some d ∧
      s2 = { atomicTotalScans := Int64.add s.atomicTotalScans Int64.one
             lastScanTime := t1.FormatRFC3339
             dailyScans := some (d.insert t2.FormatDate
               (Int64.add (s.dailyScans.index t2.FormatDate) Int64.one))
             dailyStatsCache := none } := by
  cases hd : s.dailyScans with
  | none => simp [updateScanStats, hd, GoMap.assign] at h
  | some d =>
    refine ⟨d, rfl, ?_⟩
    simp only [updateScanStats, hd, GoMap.assign, Option.some.injEq] at h
    exact h.symm

theorem mem_computeStats_ScansPerDay (s : Stats) (today : Time) (e : DailyScanCount)
    (he : e ∈ (computeStats s today).ScansPerDay) :
    ∃ i : Nat, i ≤ 6 ∧ e = dayEntry today s.dailyScans.copy i := by
  simp only [computeStats, scansPerDayLoop, List.nil_append, List.cons_append, List.mem_cons,
    List.mem_singleton, List.not_mem_nil, or_false] at he
  rcases he with h | h | h | h | h | h | h
  · exact ⟨6, by omega, h⟩
  · exact ⟨5, by omega, h⟩
  · exact ⟨4, by omega, h⟩
  · exact ⟨3, by omega, h⟩
  · exact ⟨2, by omega, h⟩
  · exact ⟨1, by omega, h⟩
  · exact ⟨0, by omega, h⟩

/-- The cached view: (1) a second stats query whose cache clock has not passed the expiration
of the view left in the cache by the first query, with no recording in between, returns the
very view of the first query and leaves the variables untouched, whatever the counters, the
daily map and the current date are by then; (2) the view cached by a first query that missed
expires 5 minutes after it was stored; (3) a stats query issued after a completed recording
is recomputed from the current variables, at any time: its `TotalScans` is one more than
before the recording, every entry of the view for the recording's date has a count one more
than that date's count before the recording, and when no zone transition falls between 8
days before and 1 day after the query and the recording's date is local day `D - i` with
`i ≤ 6`, entry `6 - i` of the view is that date with a count one more than before (the
counters being below the top of their range). -/
theorem GetStats_cache_hit_and_invalidation :
    (∀ (s s1 : Stats) (tGet1 today1 tSet1 tGet2 today2 tSet2 : Time),
      s1.dailyStatsCache = (GetStats s tGet1 today1 tSet1).1.dailyStatsCache →
      (∃ item, (GetStats s tGet1 today1 tSet1).1.dailyStatsCache = some item ∧
        tGet2.UnixNano ≤ item.Expiration) →
      GetStats s1 tGet2 today2 tSet2 = (s1, (GetStats s tGet1 today1 tSet1).2)) ∧
    (∀ (s : Stats) (tGet1 today1 tSet1 : Time),
      cacheGet s.dailyStatsCache tGet1 = none →
      (GetStats s tGet1 today1 tSet1).1.dailyStatsCache =
        some { Object := (GetStats s tGet1 today1 tSet1).2
               Expiration := tSet1.UnixNano + 300000000000 }) ∧
    (∀ (s s2 : Stats) (t1 t2 tGet today tSet : Time),
      updateScanStats s t1 t2 = some s2 →
      (GetStats s2 tGet today tSet).2 = computeStats s2 today ∧
      (s.atomicTotalScans.val < 9223372036854775807 →
        (GetStats s2 tGet today tSet).2.TotalScans.val = s.atomicTotalScans.val + 1) ∧
      ((s.dailyScans.index t2.FormatDate).val < 9223372036854775807 →
        (∀ e ∈ (GetStats s2 tGet today tSet).2.ScansPerDay, e.Date = t2.FormatDate →
          e.Count.val = (s.dailyScans.index t2.FormatDate).val + 1) ∧
        (∀ (o : Int) (i : Nat), SteadyZone today o → i ≤ 6 →
          t2.FormatDate = formatDay (today.localDay - (i : Int)) →
          ∃ c : Int64, (GetStats s2 tGet today tSet).2.ScansPerDay[6 - i]? =
              some { Date := t2.FormatDate, Count := c } ∧
            c.val = (s.dailyScans.index t2.FormatDate).val + 1))) := by
  refine ⟨?_, ?_, ?_⟩
  · intro s s1 tGet1 today1 tSet1 tGet2 today2 tSet2 hcache ⟨item, hitem, hle⟩
    have hobj := GetStats_cache_object s tGet1 today1 tSet1 item hitem
    have hget : cacheGet s1.dailyStatsCache tGet2 = some item.Object := by
      rw [hcache, hitem]; exact cacheGet_of_not_expired item tGet2 hle
    simp only [GetStats, hget, hobj]
  · intro s tGet1 today1 tSet1 hmiss
    simp only [GetStats, hmiss, cacheSet, Time.Add, Time.UnixNano, defaultExpiration]
    norm_num
  · intro s s2 t1 t2 tGet today tSet hupd
    obtain ⟨d, hd, rfl⟩ := updateScanStats_eq_some s s2 t1 t2 hupd
    have hview : ∀ s3 : Stats, s3.dailyStatsCache = none →
        (GetStats s3 tGet today tSet).2 = computeStats s3 today := by
      intro s3 h3
      simp only [GetStats, h3, cacheGet]
    rw [hview _ rfl]
    refine ⟨rfl, ?_, ?_⟩
    · intro hlt
      exact Int64.add_one_val _ hlt
    · intro hlt
      constructor
      · intro e he hdate
        obtain ⟨i, -, rfl⟩ := mem_computeStats_ScansPerDay _ today e he
        simp only [dayEntry] at hdate ⊢
        rw [hdate, GoMap.index_copy]
        simp only [GoMap.index, AList.lookup_insert, Option.getD_some]
        exact Int64.add_one_val _ hlt
      · intro o i hz hi hdate
        refine ⟨Int64.add (s.dailyScans.index t2.FormatDate) Int64.one, ?_,
          Int64.add_one_val _ hlt⟩
        rw [computeStats_ScansPerDay _ today o hz, List.getElem?_map,
          List.getElem?_range (by omega)]
        have hj : today.localDay - 6 + ((6 - i : Nat) : Int) = today.localDay - (i : Int) := by
          omega
        simp only [Option.map_some', GoMap.find]
        rw [hj, ← hdate, AList.lookup_insert, Option.getD_some]

/-- The cached view on a run in UTC: a query at noon of 2024-01-02 that misses, a second
query four minutes later that returns the same view, then a recording and a query one minute
after the first, which shows 3 scans in total and 2 scans for 2024-01-02 in its last entry. -/
theorem GetStats_cache_run_example :
    GetStats (GetStats exStats exNow exNow exNow).1 (exNow.Add 240000000000)
        (exNow.Add 240000000000) (exNow.Add 240000000000) =
      ((GetStats exStats exNow exNow exNow).1, (GetStats exStats exNow exNow exNow).2) ∧
    updateScanStats (GetStats exStats exNow exNow exNow).1 exNow exNow = some exRecorded ∧
    (GetStats exRecorded (exNow.Add 60000000000) exNow exNow).2.TotalScans.val = 3 ∧
    ∃ c : Int64, (GetStats exRecorded (exNow.Add 60000000000) exNow exNow).2.ScansPerDay[6]? =
      some { Date := "2024-01-02", Count := c } ∧ c.val = 2 :=
  ⟨GetStats_cache_hit_and_invalidation.1 exStats (GetStats exStats exNow exNow exNow).1 exNow
      exNow exNow (exNow.Add 240000000000) (exNow.Add 240000000000) (exNow.Add 240000000000)
      rfl
      ⟨_, GetStats_cache_hit_and_invalidation.2.1 exStats exNow exNow exNow (by decide),
        by decide⟩,
   rfl,
   (GetStats_cache_hit_and_invalidation.2.2 (GetStats exStats exNow exNow exNow).1 exRecorded
      exNow exNow (exNow.Add 60000000000) exNow exNow rfl).2.1 (by decide),
   ((GetStats_cache_hit_and_invalidation.2.2 (GetStats exStats exNow exNow exNow).1 exRecorded
      exNow exNow (exNow.Add 60000000000) exNow exNow rfl).2.2 (by decide)).2 0 0
      (SteadyZone_UTC _) (by omega) (by decide)⟩

/-- C3 at the failing input: in the zone of Santiago a first query at 23:57 of 2024-09-08
fills the cache, a scan is recorded at 23:58 and a second query comes at 00:01 of 2024-09-09,
inside the 5 minutes of the cached view. The recording has emptied the cache, so the view is
computed anew and its `TotalScans` is 1, one more than before. The recording's date,
2024-09-08, is the day before the query, yet the view lists 2024-09-07 twice and no entry
carries 2024-09-08: the count of the recording's date is shown nowhere. -/
theorem C3_recorded_date_missing_from_view :
    (GetStats Stats.initial exSantiago2357 exSantiago2357 exSantiago2357).1.dailyStatsCache.map
      (fun item => item.Expiration) = some (exSantiago2357.UnixNano + 300000000000) ∧
    exSantiago0001.UnixNano ≤ exSantiago2357.UnixNano + 300000000000 ∧
    updateScanStats (GetStats Stats.initial exSantiago2357 exSantiago2357 exSantiago2357).1
      exSantiago2358 exSantiago2358 = some exSantiagoRecorded ∧
    exSantiago2358.FormatDate = "2024-09-08" ∧
    formatDay (exSantiago0001.localDay - 1) = "2024-09-08" ∧
    (GetStats exSantiagoRecorded exSantiago0001 exSantiago0001 exSantiago0001).2.TotalScans.val =
      Stats.initial.atomicTotalScans.val + 1 ∧
    (GetStats exSantiagoRecorded exSantiago0001 exSantiago0001 exSantiago0001).2.ScansPerDay =
      [⟨"2024-09-03", Int64.zero⟩, ⟨"2024-09-04", Int64.zero⟩, ⟨"2024-09-05", Int64.zero⟩,
       ⟨"2024-09-06", Int64.zero⟩, ⟨"2024-09-07", Int64.zero⟩, ⟨"2024-09-07", Int64.zero⟩,
       ⟨"2024-09-09", Int64.zero⟩] ∧
    ¬ ∃ e ∈ (GetStats exSantiagoRecorded exSantiago0001 exSantiago0001
        exSantiago0001).2.ScansPerDay, e.Date = "2024-09-08" := by
  refine ⟨by decide, by decide, rfl, by decide, by decide, by decide, by decide, by decide⟩

/-! ## Persistence round trip -/

theorem decodeInt_number_val (n cur : Int64) :
    decodeInt (JsonScalar.number n.val) cur = Except.ok n := by
  simp only [decodeInt]
  rw [dif_pos n.property]

theorem decodeMapMembers_encoded (l : List (Sigma fun _ : String => Int64)) (acc : DailyMap) :
    decodeMapMembers acc (l.map (fun e => (e.1, JsonScalar.number e.2.val))) =
      Except.ok (l.foldl (fun c e => c.insert e.1 e.2) acc) := by
  induction l generalizing acc with
  | nil => rfl
  | cons e t ih =>
    simp only [List.map_cons, decodeMapMembers, decodeInt_number_val, List.foldl_cons]
    exact ih _

theorem decodeStats_encodeStats (n : Int64) (t : String) (d : DailyMap) :
    decodeStats (FileContent.json
        (encodeStats { TotalScans := n, LastScanTime := t, DailyScans := some d })) =
      Except.ok
        { TotalScans := n
          LastScanTime := t
          DailyScans := some
            ((d.entries.insertionSort (fun a b => a.1.data ≤ b.1.data)).foldl
              (fun c e => c.insert e.1 e.2) ∅) } := by
  have h1 : matchField "totalScans" = some StatsField.TotalScans := by decide
  have h2 : matchField "lastScanTime" = some StatsField.LastScanTime := by decide
  have h3 : matchField "dailyScans" = some StatsField.DailyScans := by decide
  simp only [decodeStats, encodeStats, encodeDailyScans, decodeMembers, decodeMember, h1, h2, h3,
    decodeInt_number_val, decodeMapMembers_encoded, persistentStats.zero, Option.getD_none]

theorem lookup_sorted_foldl (d : DailyMap) (k : String) :
    ((d.entries.insertionSort (fun a b => a.1.data ≤ b.1.data)).foldl
      (fun c e => c.insert e.1 e.2) (∅ : DailyMap)).lookup k = d.lookup k := by
  have hperm := List.perm_insertionSort (fun a b : (Sigma fun _ : String => Int64) =>
    a.1.data ≤ b.1.data) d.entries
  have hnd : (d.entries.insertionSort (fun a b => a.1.data ≤ b.1.data)).NodupKeys :=
    (List.perm_nodupKeys hperm).mpr d.nodupKeys
  rw [foldl_insert_lookup _ hnd, List.perm_dlookup k hnd d.nodupKeys hperm]
  show (match d.lookup k with
    | some v => some v
    | none => (∅ : DailyMap).lookup k) = d.lookup k
  cases d.lookup k <;> simp

/-- C4: `saveStats` followed by `loadStats` is a round trip. When `saveStats` runs without an
I/O error on the aggregate `s`, and `loadStats` then opens and decodes the file it wrote
(whatever the variables `s0` hold at that moment), both return `nil` and the variables after
the load have the `totalScans` and `lastScanTime` of `s` and the same date-to-count mapping:
every date has the same entry, present or absent, as in `s`. -/
theorem C4_load_save_roundtrip (s s0 : Stats) (disk : Disk) :
    (saveStats s disk none).2 = none ∧
    (loadStats s0 (saveStats s disk none).1 false).2 = none ∧
    (loadStats s0 (saveStats s disk none).1 false).1.atomicTotalScans = s.atomicTotalScans ∧
    (loadStats s0 (saveStats s disk none).1 false).1.lastScanTime = s.lastScanTime ∧
    ∀ k, (loadStats s0 (saveStats s disk none).1 false).1.dailyScans.find k =
      s.dailyScans.find k := by
  simp only [saveStats, loadStats, decodeStats_encodeStats, Bool.false_eq_true, if_false,
    true_and]
  intro k
  simp only [GoMap.find, lookup_sorted_foldl, GoMap.lookup_copy]

/-! ## Outcome of a scan -/

/-- C5: `ScanImageWithContext` returns a report exactly when the context is not canceled at
the moment the engine call returns, the engine exited without error and the output trimmed by
`cleanJSONOutput` parses as that report; when the context is canceled at that moment it
returns the context's error, whatever the exit status and the output; otherwise an engine
error gives the error `scan error: ...` with the extracted message, and a parse failure of
the trimmed output gives the error `parse error: ...`. -/
theorem C5_scan_outcome (s : Scanner) (environ : List String) (home : String)
    (engine : List String → List String → EngineRun)
    (unmarshal : String → Except String ScanResult) (imagePath : String) :
    (∀ r, ScanImageWithContext s environ home engine unmarshal imagePath = ScanReturn.result r ↔
      (engine (scanArgs s imagePath) (scanEnv s environ home)).ctxErr = none ∧
      (engine (scanArgs s imagePath) (scanEnv s environ home)).err = none ∧
      ∃ c, cleanJSONOutput (engine (scanArgs s imagePath) (scanEnv s environ home)).output
          = some c ∧ unmarshal c = Except.ok r) ∧
    (∀ e, (engine (scanArgs s imagePath) (scanEnv s environ home)).ctxErr = some e →
      ScanImageWithContext s environ home engine unmarshal imagePath = ScanReturn.error e) ∧
    ((engine (scanArgs s imagePath) (scanEnv s environ home)).ctxErr = none →
      ∀ x, (engine (scanArgs s imagePath) (scanEnv s environ home)).err = some x →
      ScanImageWithContext s environ home engine unmarshal imagePath =
        ScanReturn.error (GoError.errorf ("scan error: " ++
          extractErrorMessage (engine (scanArgs s imagePath) (scanEnv s environ home)).output))) ∧
    ((engine (scanArgs s imagePath) (scanEnv s environ home)).ctxErr = none →
      (engine (scanArgs s imagePath) (scanEnv s environ home)).err = none →
      ∀ c e, cleanJSONOutput (engine (scanArgs s imagePath) (scanEnv s environ home)).output
          = some c → unmarshal c = Except.error e →
      ScanImageWithContext s environ home engine unmarshal imagePath =
        ScanReturn.error (GoError.errorf ("parse error: " ++ e))) := by
  simp only [ScanImageWithContext]
  generalize engine (scanArgs s imagePath) (scanEnv s environ home) = run
  refine ⟨?_, ?_, ?_, ?_⟩
  · intro r
    constructor
    · intro h
      cases hc : run.ctxErr with
      | some e => simp [hc] at h
      | none =>
        cases he : run.err with
        | some x => simp [hc, he] at h
        | none =>
          cases hj : cleanJSONOutput run.output with
          | none => simp [hc, he, hj] at h
          | some c =>
            cases hu : unmarshal c with
            | error e => simp [hc, he, hj, hu] at h
            | ok r2 =>
              simp only [hc, he, hj, hu, ScanReturn.result.injEq] at h
              exact ⟨rfl, rfl, c, rfl, by rw [hu, h]⟩
    · rintro ⟨hc, he, c, hj, hu⟩
      simp only [hc, he, hj, hu]
  · intro e hc
    simp only [hc]
  · intro hc x he
    simp only [hc, he]
  · intro hc he c e hj hu
    simp only [hc, he, hj, hu]

/-- C5 on four runs of the engine: a clean exit whose output wraps `{}` in log lines gives the
report, the same output after the deadline gives the deadline error, a failed run gives a
scan error, and output without JSON gives a parse error. -/
theorem C5_scan_outcome_witness :
    ScanImageWithContext exScanner [] "/root" exEngineOk exUnmarshal "alpine:3" =
      ScanReturn.result exReport ∧
    ScanImageWithContext exScanner [] "/root" exEngineLate exUnmarshal "alpine:3" =
      ScanReturn.error GoError.deadlineExceeded ∧
    ScanImageWithContext exScanner [] "/root" exEngineFailed exUnmarshal "alpine:3" =
      ScanReturn.error (GoError.errorf "scan error: error: no such image") ∧
    ScanImageWithContext exScanner [] "/root" exEngineNoise exUnmarshal "alpine:3" =
      ScanReturn.error (GoError.errorf "parse error: unexpected end of JSON input") :=
  ⟨((C5_scan_outcome exScanner [] "/root" exEngineOk exUnmarshal "alpine:3").1 exReport).mpr
      ⟨rfl, rfl, "\x7b\x7d", by decide, rfl⟩,
   (C5_scan_outcome exScanner [] "/root" exEngineLate exUnmarshal "alpine:3").2.1
      GoError.deadlineExceeded rfl,
   ((C5_scan_outcome exScanner [] "/root" exEngineFailed exUnmarshal "alpine:3").2.2.1
      rfl "exit status 1" rfl).trans (by decide),
   (C5_scan_outcome exScanner [] "/root" exEngineNoise exUnmarshal "alpine:3").2.2.2
      rfl rfl "nothing to report" "unexpected end of JSON input" (by decide) rfl⟩

/-! ## The extracted error message -/

theorem cond_of_decomposition (lit : List Char) (c : Char) (cs tail : List Char) (c2 : Char)
    (h : c :: cs = [] ++ lit ++ c2 :: tail) (hc : c2 ≠ '\n') :
    lit.isPrefixOf (c :: cs) = true ∧
      ((c :: cs).drop lit.length).takeWhile (fun x => x ≠ '\n') ≠ [] := by
  rw [List.nil_append] at h
  constructor
  · rw [List.isPrefixOf_iff_prefix, h]
    exact List.prefix_append _ _
  · rw [h, List.drop_left]
    simp [List.takeWhile_cons, hc]

theorem dropWhile_head_false (p : Char → Bool) (l : List Char) (x : Char) (t : List Char)
    (h : l.dropWhile p = x :: t) : p x = false := by
  induction l with
  | nil => simp at h
  | cons a l ih =>
    rw [List.dropWhile_cons] at h
    split at h
    · exact ih h
    · rename_i hp
      rw [List.cons.injEq] at h
      rw [← h.1]
      simpa using hp

theorem findLeftmost_none (lit : List Char) (s : List Char) (h : findLeftmost lit s = none) :
    ¬ HasMatch lit s := by
  induction s with
  | nil =>
    rintro ⟨pre, c, tail, hs, -⟩
    have := congrArg List.length hs
    simp at this
    omega
  | cons c cs ih =>
    rw [findLeftmost] at h
    split at h
    · cases h
    · rename_i hcond
      rintro ⟨pre, c2, tail, hs, hc2⟩
      cases pre with
      | nil => exact hcond (cond_of_decomposition lit c cs tail c2 hs hc2)
      | cons p pre2 =>
        simp only [List.cons_append, List.cons.injEq] at hs
        exact ih h ⟨pre2, c2, tail, hs.2, hc2⟩

theorem findLeftmost_some (lit : List Char) (s m : List Char)
    (h : findLeftmost lit s = some m) : LeftmostMatch lit s m := by
  induction s with
  | nil => cases h
  | cons c cs ih =>
    rw [findLeftmost] at h
    split at h
    · rename_i hcond
      obtain ⟨hpre, hne⟩ := hcond
      rw [List.isPrefixOf_iff_prefix, List.prefix_iff_eq_append] at hpre
      refine ⟨[], ((c :: cs).drop lit.length).takeWhile (fun x => x ≠ '\n'),
        ((c :: cs).drop lit.length).dropWhile (fun x => x ≠ '\n'), ?_, (Option.some.inj h).symm,
        hne, ?_, ?_, ?_⟩
      · rw [List.nil_append, List.append_assoc, List.takeWhile_append_dropWhile, hpre]
      · intro x hx
        have := List.mem_takeWhile_imp hx
        simpa using this
      · cases hd : ((c :: cs).drop lit.length).dropWhile (fun x => x ≠ '\n') with
        | nil => exact Or.inl rfl
        | cons x t =>
          right
          have hx := dropWhile_head_false _ _ x t hd
          simp only [ne_eq, decide_not, Bool.not_eq_false', decide_eq_true_eq] at hx
          exact ⟨t, by rw [hx]⟩
      · intro pre2 c2 tail _ _
        exact Nat.zero_le _
    · rename_i hcond
      obtain ⟨pre, rest, post, hs, hm, hne, hnl, hpost, hmin⟩ := ih h
      refine ⟨c :: pre, rest, post, by rw [hs]; simp, hm, hne, hnl, hpost, ?_⟩
      intro pre2 c2 tail hs2 hc2
      cases pre2 with
      | nil => exact absurd (cond_of_decomposition lit c cs tail c2 hs2 hc2) hcond
      | cons p pre3 =>
        simp only [List.cons_append, List.cons.injEq] at hs2
        have := hmin pre3 c2 tail hs2.2 hc2
        simp only [List.length_cons]
        omega

theorem LeftmostMatch.isInfix {lit out m : List Char} (h : LeftmostMatch lit out m) :
    m <:+: out := by
  obtain ⟨pre, rest, post, hs, hm, -⟩ := h
  exact ⟨pre, post, by rw [hs, hm]; simp⟩

theorem LeftmostMatch.ne_nil {lit out m : List Char} (h : LeftmostMatch lit out m) :
    m ≠ [] := by
  obtain ⟨pre, rest, post, -, hm, hne, -⟩ := h
  rw [hm]
  intro h0
  exact hne (List.append_eq_nil.mp h0).2

theorem FindString_of_some (pattern : String) (output : String) (m : List Char)
    (h : findLeftmost (MustCompile pattern).literal output.data = some m) (hm : m ≠ []) :
    (MustCompile pattern).FindString output = String.mk m ∧
      (MustCompile pattern).FindString output ≠ "" := by
  have h1 : (MustCompile pattern).FindString output = String.mk m := by
    simp only [Regexp.FindString, h]
  refine ⟨h1, ?_⟩
  rw [h1]
  intro h0
  exact hm (by simpa using congrArg String.data h0)

theorem FindString_of_none (pattern : String) (output : String)
    (h : findLeftmost (MustCompile pattern).literal output.data = none) :
    (MustCompile pattern).FindString output = "" := by
  simp only [Regexp.FindString, h]

theorem LeftmostMatch.hasMatch {lit out m : List Char} (h : LeftmostMatch lit out m) :
    HasMatch lit out := by
  obtain ⟨pre, rest, post, hs, -, hne, hnl, -⟩ := h
  cases rest with
  | nil => exact absurd rfl hne
  | cons c tail =>
    exact ⟨pre, c, tail ++ post, by rw [hs]; simp, hnl c (List.mem_cons_self _ _)⟩

theorem findLeftmost_of_hasMatch (lit out : List Char) (h : HasMatch lit out) :
    ∃ m, findLeftmost lit out = some m ∧ LeftmostMatch lit out m := by
  cases hf : findLeftmost lit out with
  | none => exact absurd h (findLeftmost_none lit out hf)
  | some m => exact ⟨m, rfl, findLeftmost_some lit out m hf⟩

theorem findLeftmost_of_not_hasMatch (lit out : List Char) (h : ¬ HasMatch lit out) :
    findLeftmost lit out = none := by
  cases hf : findLeftmost lit out with
  | none => rfl
  | some m => exact absurd (findLeftmost_some lit out m hf).hasMatch h

theorem extractLoop_cons_some (output pattern : String) (rest : List String) (m : List Char)
    (h : findLeftmost (MustCompile pattern).literal output.data = some m) :
    extractLoop output (pattern :: rest) = String.mk m := by
  have hm := (findLeftmost_some _ _ _ h).ne_nil
  obtain ⟨h1, h2⟩ := FindString_of_some pattern output m h hm
  simp only [extractLoop, h1] at h2 ⊢
  rw [if_pos h2]

theorem extractLoop_cons_none (output pattern : String) (rest : List String)
    (h : findLeftmost (MustCompile pattern).literal output.data = none) :
    extractLoop output (pattern :: rest) = extractLoop output rest := by
  simp only [extractLoop, FindString_of_none pattern output h, ne_eq, not_true_eq_false,
    if_false]

/-- C6, the statement of the claim refuted: in the output `failed x error: y` the earliest
marker is `failed`, at position 0, but the function returns `error: y`, which does not begin
there. -/
theorem C6_earliest_marker_counterexample :
    ¬ ReturnsEarliestMarkerText "failed x error: y" := by
  intro h
  have h2 := h.2.1 0 ⟨"failed", by decide, by decide⟩ (fun _ _ j _ => Nat.zero_le j)
  revert h2
  decide

/-- C6 as amended: `extractErrorMessage` tries the markers in the order `error:`, `failed`,
`Error:` and returns the leftmost match of the first one that is followed somewhere by a
character other than newline: that marker at its first such occurrence with the rest of its
line. It returns the output unchanged when no marker is followed by such a character. The
result is in every case a contiguous substring of the output. -/
theorem C6_extractErrorMessage_first_pattern (output : String) :
    (HasMatch "error:".data output.data →
      LeftmostMatch "error:".data output.data (extractErrorMessage output).data) ∧
    (¬ HasMatch "error:".data output.data → HasMatch "failed".data output.data →
      LeftmostMatch "failed".data output.data (extractErrorMessage output).data) ∧
    (¬ HasMatch "error:".data output.data → ¬ HasMatch "failed".data output.data →
      HasMatch "Error:".data output.data →
      LeftmostMatch "Error:".data output.data (extractErrorMessage output).data) ∧
    (¬ HasMatch "error:".data output.data → ¬ HasMatch "failed".data output.data →
      ¬ HasMatch "Error:".data output.data → extractErrorMessage output = output) ∧
    (extractErrorMessage output).data <:+: output.data := by
  have l1 : (MustCompile "error:.+").literal = "error:".data := by decide
  have l2 : (MustCompile "failed.+").literal = "failed".data := by decide
  have l3 : (MustCompile "Error:.+").literal = "Error:".data := by decide
  have p1 : HasMatch "error:".data output.data →
      LeftmostMatch "error:".data output.data (extractErrorMessage output).data := by
    intro h
    obtain ⟨m, hm, hl⟩ := findLeftmost_of_hasMatch _ _ h
    rw [extractErrorMessage, extractLoop_cons_some _ _ _ m (by rw [l1]; exact hm)]
    exact hl
  have p2 : ¬ HasMatch "error:".data output.data → HasMatch "failed".data output.data →
      LeftmostMatch "failed".data output.data (extractErrorMessage output).data := by
    intro n1 h
    obtain ⟨m, hm, hl⟩ := findLeftmost_of_hasMatch _ _ h
    rw [extractErrorMessage,
      extractLoop_cons_none _ _ _ (by rw [l1]; exact findLeftmost_of_not_hasMatch _ _ n1),
      extractLoop_cons_some _ _ _ m (by rw [l2]; exact hm)]
    exact hl
  have p3 : ¬ HasMatch "error:".data output.data → ¬ HasMatch "failed".data output.data →
      HasMatch "Error:".data output.data →
      LeftmostMatch "Error:".data output.data (extractErrorMessage output).data := by
    intro n1 n2 h
    obtain ⟨m, hm, hl⟩ := findLeftmost_of_hasMatch _ _ h
    rw [extractErrorMessage,
      extractLoop_cons_none _ _ _ (by rw [l1]; exact findLeftmost_of_not_hasMatch _ _ n1),
      extractLoop_cons_none _ _ _ (by rw [l2]; exact findLeftmost_of_not_hasMatch _ _ n2),
      extractLoop_cons_some _ _ _ m (by rw [l3]; exact hm)]
    exact hl
  have p4 : ¬ HasMatch "error:".data output.data → ¬ HasMatch "failed".data output.data →
      ¬ HasMatch "Error:".data output.data → extractErrorMessage output = output := by
    intro n1 n2 n3
    rw [extractErrorMessage,
      extractLoop_cons_none _ _ _ (by rw [l1]; exact findLeftmost_of_not_hasMatch _ _ n1),
      extractLoop_cons_none _ _ _ (by rw [l2]; exact findLeftmost_of_not_hasMatch _ _ n2),
      extractLoop_cons_none _ _ _ (by rw [l3]; exact findLeftmost_of_not_hasMatch _ _ n3)]
    rfl
  refine ⟨p1, p2, p3, p4, ?_⟩
  by_cases h1 : HasMatch "error:".data output.data
  · exact (p1 h1).isInfix
  · by_cases h2 : HasMatch "failed".data output.data
    · exact (p2 h1 h2).isInfix
    · by_cases h3 : HasMatch "Error:".data output.data
      · exact (p3 h1 h2 h3).isInfix
      · rw [p4 h1 h2 h3]

/-- C6 as amended, on the output `failed x error: y`: the marker `error:` is followed by a
space, so the result is the leftmost match of `error:.+`, which is `error: y`. -/
theorem C6_extractErrorMessage_first_pattern_witness :
    extractErrorMessage "failed x error: y" = "error: y" ∧
    LeftmostMatch "error:".data "failed x error: y".data
      (extractErrorMessage "failed x error: y").data :=
  ⟨by decide,
   (C6_extractErrorMessage_first_pattern "failed x error: y").1
     ⟨"failed x ".data, ' ', "y".data, by decide, by decide⟩⟩

/-! ## Trimming the engine output -/

/-- C7 at the failing input: for the output `} {` the first `{` is at position 2 and the last
`}` at position 0, the slice expression `output[2:1]` panics, so `cleanJSONOutput` returns
nothing, and a scan whose engine exits with status zero and prints this text panics. -/
theorem C7_cleanJSONOutput_reversed_braces :
    stringsIndex "\x7d \x7b" "\x7b" = 2 ∧ stringsLastIndex "\x7d \x7b" "\x7d" = 0 ∧
    sliceString "\x7d \x7b" 2 (0 + 1) = none ∧ cleanJSONOutput "\x7d \x7b" = none ∧
    ScanImageWithContext exScanner [] "/root"
      (fun _ _ => { ctxErr := none, err := none, output := "\x7d \x7b" }) exUnmarshal "alpine:3" =
        ScanReturn.panic := by
  decide

/-! ## Redaction of the logged command line -/

theorem redactLoop_eq_redactList (rest : List String) :
    ∀ (pre : List String) (a : String),
      redactLoop rest.length pre.length (pre ++ a :: rest) =
        pre ++ a :: redactList (sensitiveFlags a) rest := by
  induction rest with
  | nil => intro pre a; rfl
  | cons b rest ih =>
    intro pre a
    have hget : (pre ++ a :: b :: rest).getD pre.length "" = a := by
      rw [List.getD_eq_getElem?_getD, List.getElem?_append_right (Nat.le_refl _)]
      simp
    have h1 : ∀ x : String, redactLoop rest.length (pre.length + 1) (pre ++ a :: x :: rest) =
        pre ++ a :: x :: redactList (sensitiveFlags x) rest := by
      intro x
      have := ih (pre ++ [a]) x
      simpa using this
    rw [List.length_cons, redactLoop, hget, redactList]
    by_cases hs : sensitiveFlags a = true
    · have hset : (pre ++ a :: b :: rest).set (pre.length + 1) "[REDACTED]" =
          pre ++ a :: "[REDACTED]" :: rest := by
        rw [List.set_append_right _ _ (by omega)]
        simp
      rw [if_pos hs, hset, h1, hs]
      rfl
    · rw [if_neg hs, h1]
      simp only [Bool.not_eq_true] at hs
      rw [hs]
      rfl

theorem redactedArgs_eq (args : List String) : redactedArgs args = redactList false args := by
  cases args with
  | nil => rfl
  | cons a rest =>
    have := redactLoop_eq_redactList rest [] a
    simpa [redactedArgs, redactList] using this

theorem redactList_length (l : List String) : ∀ prev, (redactList prev l).length = l.length := by
  induction l with
  | nil => intro prev; rfl
  | cons a rest ih => intro prev; simp [redactList, ih]

theorem sensitiveFlags_redacted : sensitiveFlags "[REDACTED]" = false := by decide

theorem sensitiveFlags_iff (a : String) : sensitiveFlags a = true ↔ a = "--password" := by
  simp [sensitiveFlags]

theorem redactList_changed (l : List String) :
    ∀ (prev : Bool) (i : Nat), (redactList prev l)[i]? ≠ l[i]? →
      (redactList prev l)[i]? = some "[REDACTED]" ∧
        ((i = 0 ∧ prev = true) ∨ ∃ k, i = k + 1 ∧ l[k]? = some "--password") := by
  induction l with
  | nil => intro prev i h; simp [redactList] at h
  | cons a rest ih =>
    intro prev i h
    cases i with
    | zero =>
      cases prev with
      | false => simp [redactList] at h
      | true => simp [redactList]
    | succ j =>
      simp only [redactList, List.getElem?_cons_succ] at h ⊢
      obtain ⟨hred, hor⟩ := ih _ j h
      refine ⟨hred, Or.inr ?_⟩
      rcases hor with ⟨hj, hsens⟩ | ⟨k, hk, hpw⟩
      · cases prev with
        | true => simp [sensitiveFlags_redacted] at hsens
        | false =>
          simp only [Bool.false_eq_true, if_false] at hsens
          exact ⟨0, by omega, by simp [(sensitiveFlags_iff a).mp hsens]⟩
      · exact ⟨k + 1, by omega, by simpa using hpw⟩

theorem redactList_after_password (l : List String) :
    ∀ (prev : Bool) (k : Nat) (x : String), (redactList prev l)[k]? = some "--password" →
      (redactList prev l)[k + 1]? = some x → x = "[REDACTED]" := by
  induction l with
  | nil => intro prev k x h; simp [redactList] at h
  | cons a rest ih =>
    intro prev k x h hx
    cases k with
    | zero =>
      simp only [redactList, List.getElem?_cons_zero, Option.some.injEq] at h
      simp only [redactList, List.getElem?_cons_succ, h] at hx
      have hs : sensitiveFlags "--password" = true := by decide
      rw [hs] at hx
      cases rest with
      | nil => simp [redactList] at hx
      | cons b rest2 =>
        simp only [redactList, if_true, List.getElem?_cons_zero, Option.some.injEq] at hx
        exact hx.symm
    | succ j =>
      simp only [redactList, List.getElem?_cons_succ] at h hx
      exact ih _ j x h hx

theorem redactList_scanArgs (s : Scanner) (imagePath : String) :
    redactList false (scanArgs s imagePath) =
      redactList false ["image", "--server", s.TrivyServerURL, "--scanners"] ++
        (["vuln", "--severity", "CRITICAL,HIGH,MEDIUM,LOW", "--format", "json", "--quiet"] ++
          ((if stringsContains imagePath s.RegistryURL then
              ["--username", "gitlab-ci-token", "--password", "[REDACTED]"]
            else []) ++ [imagePath])) := by
  have hpw : sensitiveFlags "--password" = true := by decide
  have hn : ∀ a ∈ ["image", "--server", "--scanners", "vuln", "--severity",
      "CRITICAL,HIGH,MEDIUM,LOW", "--format", "json", "--quiet", "--username",
      "gitlab-ci-token", "[REDACTED]"], sensitiveFlags a = false := by decide
  by_cases hc : stringsContains imagePath s.RegistryURL = true <;>
  by_cases hu : sensitiveFlags s.TrivyServerURL = true <;>
  simp [scanArgs, redactList, hc, hu, hpw, hn]

/-- C8: the logged command line does not depend on the credential. For every scanner
configuration, image path and pair of credentials, `redactSensitiveArgs` maps the two argument
lists built by `ScanImageWithContext` to the same string; when the registry credentials are
part of the arguments, the redacted list ends in `--password`, `[REDACTED]` and the image path.
For every argument list, the redacted list has the same length, differs from the input only at
positions that follow a `--password` element, where it holds `[REDACTED]`, holds `[REDACTED]`
after each of its `--password` elements, and the caller's list is left as it was. -/
theorem C8_logged_command_hides_credential (s : Scanner) (imagePath t1 t2 : String) :
    (redactSensitiveArgs (scanArgs { s with GitlabToken := t1 } imagePath)).2 =
      (redactSensitiveArgs (scanArgs { s with GitlabToken := t2 } imagePath)).2 ∧
    (stringsContains imagePath s.RegistryURL = true →
      ∃ pre, redactedArgs (scanArgs { s with GitlabToken := t1 } imagePath) =
        pre ++ ["--password", "[REDACTED]", imagePath]) ∧
    (∀ args : List String,
      (redactedArgs args).length = args.length ∧
      (∀ i, (redactedArgs args)[i]? ≠ args[i]? →
        (redactedArgs args)[i]? = some "[REDACTED]" ∧
          ∃ k, i = k + 1 ∧ args[k]? = some "--password") ∧
      (∀ k x, (redactedArgs args)[k]? = some "--password" →
        (redactedArgs args)[k + 1]? = some x → x = "[REDACTED]") ∧
      (redactSensitiveArgs args).1 = args ∧
      (redactSensitiveArgs args).2 = stringsJoin (redactedArgs args) " ") := by
  refine ⟨?_, ?_, ?_⟩
  · simp only [redactSensitiveArgs, redactedArgs_eq, redactList_scanArgs]
  · intro hc
    rw [redactedArgs_eq, redactList_scanArgs]
    simp only [hc, if_true]
    exact ⟨redactList false ["image", "--server", s.TrivyServerURL, "--scanners"] ++
      ["vuln", "--severity", "CRITICAL,HIGH,MEDIUM,LOW", "--format", "json", "--quiet",
        "--username", "gitlab-ci-token"], by simp⟩
  · intro args
    refine ⟨by rw [redactedArgs_eq, redactList_length], ?_, ?_, rfl, rfl⟩
    · intro i h
      rw [redactedArgs_eq] at h ⊢
      obtain ⟨hred, hor⟩ := redactList_changed args false i h
      refine ⟨hred, ?_⟩
      rcases hor with ⟨-, hf⟩ | hk
      · cases hf
      · exact hk
    · intro k x h hx
      rw [redactedArgs_eq] at h hx
      exact redactList_after_password args false k x h hx

/-- C8 on a private-registry image: with the credential `s3cr3t` or with `hunter2` the logged
string is the same and shows `[REDACTED]` after `--password`. -/
theorem C8_logged_command_hides_credential_witness :
    (redactSensitiveArgs (scanArgs { exScanner with GitlabToken := "s3cr3t" }
        "registry.example.com/app:1")).2 =
      "image --server http://trivy:4954 --scanners vuln --severity CRITICAL,HIGH,MEDIUM,LOW --format json --quiet --username gitlab-ci-token --password [REDACTED] registry.example.com/app:1" ∧
    (redactSensitiveArgs (scanArgs { exScanner with GitlabToken := "hunter2" }
        "registry.example.com/app:1")).2 =
      "image --server http://trivy:4954 --scanners vuln --severity CRITICAL,HIGH,MEDIUM,LOW --format json --quiet --username gitlab-ci-token --password [REDACTED] registry.example.com/app:1" ∧
    ∃ pre, redactedArgs (scanArgs { exScanner with GitlabToken := "s3cr3t" }
        "registry.example.com/app:1") =
      pre ++ ["--password", "[REDACTED]", "registry.example.com/app:1"] :=
  ⟨rfl,
   (C8_logged_command_hides_credential exScanner "registry.example.com/app:1" "s3cr3t"
      "hunter2").1.symm.trans rfl,
   (C8_logged_command_hides_credential exScanner "registry.example.com/app:1" "s3cr3t"
      "hunter2").2.1 (by decide)⟩

/-! ## A scan that outlives the deadline -/

/-- C10, the statement of the claim refuted: the context is past its deadline when the engine
call returns, the engine exited with status zero and its trimmed output parses, yet whatever
the handler's `select` would pick the aggregate is left as it was, with `totalScans` still 2
and not 3, and the handler writes no response. -/
theorem C10_late_scan_not_recorded :
    (exEngineLate (scanArgs (NewScanner "http://trivy:4954" "" "") "alpine:3")
      (scanEnv (NewScanner "http://trivy:4954" "" "") [] "/root")).ctxErr =
        some GoError.deadlineExceeded ∧
    (exEngineLate (scanArgs (NewScanner "http://trivy:4954" "" "") "alpine:3")
      (scanEnv (NewScanner "http://trivy:4954" "" "") [] "/root")).err = none ∧
    (cleanJSONOutput (exEngineLate (scanArgs (NewScanner "http://trivy:4954" "" "") "alpine:3")
      (scanEnv (NewScanner "http://trivy:4954" "" "") [] "/root")).output).map exUnmarshal =
        some (Except.ok exReport) ∧
    (ScanImage exStats (some exRequest) exConfig [] "/root" exEngineLate exUnmarshal
      exLateSchedule exNow exNow).2 = [] ∧
    ((ScanImage exStats (some exRequest) exConfig [] "/root" exEngineLate exUnmarshal
      exLateSchedule exNow exNow).1.map (fun s => s.atomicTotalScans.val)) = some 2 ∧
    ¬ ((ScanImage exStats (some exRequest) exConfig [] "/root" exEngineLate exUnmarshal
      exLateSchedule exNow exNow).1.map (fun s => s.atomicTotalScans.val)) =
        some (exStats.atomicTotalScans.val + 1) := by
  refine ⟨rfl, rfl, rfl, by decide, by decide, by decide⟩

theorem ScanImageWithContext_of_ctxErr (sc : Scanner) (environ : List String) (home : String)
    (engine : List String → List String → EngineRun)
    (unmarshal : String → Except String ScanResult) (imagePath : String) (e : GoError)
    (h : (engine (scanArgs sc imagePath) (scanEnv sc environ home)).ctxErr = some e) :
    ScanImageWithContext sc environ home engine unmarshal imagePath = ScanReturn.error e := by
  simp only [ScanImageWithContext, h]

theorem ctxErr_of_result (sc : Scanner) (environ : List String) (home : String)
    (engine : List String → List String → EngineRun)
    (unmarshal : String → Except String ScanResult) (imagePath : String) (raw : ScanResult)
    (h : ScanImageWithContext sc environ home engine unmarshal imagePath =
      ScanReturn.result raw) :
    (engine (scanArgs sc imagePath) (scanEnv sc environ home)).ctxErr = none := by
  cases hc : (engine (scanArgs sc imagePath) (scanEnv sc environ home)).ctxErr with
  | none => rfl
  | some e =>
    rw [ScanImageWithContext_of_ctxErr sc environ home engine unmarshal imagePath e hc] at h
    cases h

/-- C10 as amended: when the context is canceled by the time the engine call returns,
`ScanImageWithContext` returns the context's error, the scan goroutine delivers nothing, the
handler returns without writing a response and the aggregate is unchanged, even if the engine
exited with status zero and printed a parsable report. The recording without a response
happens when the engine call returned a report before the cancellation, the result was
delivered and received, and the handler read `timeoutReached = true`: then the handler writes
nothing and the aggregate is the one `updateScanStats` produces. -/
theorem C10_canceled_scan_leaves_stats (s : Stats) (req : ScanRequest) (cfg : Config)
    (environ : List String) (home : String) (engine : List String → List String → EngineRun)
    (unmarshal : String → Except String ScanResult) (sched : Schedule) (t1 t2 : Time) :
    (∀ e, (engine (scanArgs (NewScanner cfg.TrivyServerURL cfg.RegistryURL cfg.GitlabToken)
          req.ImagePath)
        (scanEnv (NewScanner cfg.TrivyServerURL cfg.RegistryURL cfg.GitlabToken) environ
          home)).ctxErr = some e →
      ScanImageWithContext (NewScanner cfg.TrivyServerURL cfg.RegistryURL cfg.GitlabToken)
        environ home engine unmarshal req.ImagePath = ScanReturn.error e ∧
      ScanImage s (some req) cfg environ home engine unmarshal sched t1 t2 = (some s, [])) ∧
    (∀ raw, ScanImageWithContext (NewScanner cfg.TrivyServerURL cfg.RegistryURL cfg.GitlabToken)
        environ home engine unmarshal req.ImagePath = ScanReturn.result raw →
      sched.ctxDoneAtSend = false → sched.handlerTakesResult = true →
      sched.timeoutReached = true →
      ScanImage s (some req) cfg environ home engine unmarshal sched t1 t2 =
        (updateScanStats s t1 t2, [])) := by
  constructor
  · intro e he
    have hret := ScanImageWithContext_of_ctxErr
      (NewScanner cfg.TrivyServerURL cfg.RegistryURL cfg.GitlabToken) environ home engine
      unmarshal req.ImagePath e he
    refine ⟨hret, ?_⟩
    simp only [ScanImage, hret, he, scanGoroutine, Option.isSome_some, Bool.true_or, if_true]
  · intro raw hret h1 h2 h3
    have hctx := ctxErr_of_result
      (NewScanner cfg.TrivyServerURL cfg.RegistryURL cfg.GitlabToken) environ home engine
      unmarshal req.ImagePath raw hret
    simp only [ScanImage, hret, hctx, scanGoroutine, h1, h2, h3, Option.isSome_none,
      Bool.or_self, Bool.false_eq_true, if_false, if_true]

/-- C10 as amended, on two requests: one whose engine call returns after the deadline, which
leaves the aggregate alone, and one whose report is received by a handler that reads
`timeoutReached = true`, which is recorded without a response. -/
theorem C10_canceled_scan_leaves_stats_witness :
    (ScanImage exStats (some exRequest) exConfig [] "/root" exEngineLate exUnmarshal
      exLateSchedule exNow exNow = (some exStats, [])) ∧
    (ScanImage exStats (some exRequest) exConfig [] "/root" exEngineOk exUnmarshal
      exLateSchedule exNow exNow = (some exRecorded, [])) :=
  ⟨((C10_canceled_scan_leaves_stats exStats exRequest exConfig [] "/root" exEngineLate
      exUnmarshal exLateSchedule exNow exNow).1 GoError.deadlineExceeded rfl).2,
   ((C10_canceled_scan_leaves_stats exStats exRequest exConfig [] "/root" exEngineOk
      exUnmarshal exLateSchedule exNow exNow).2 exReport (by decide) rfl rfl rfl).trans rfl⟩

/-! ## Credentials of the invocation -/

/-- C11 on the code: `NewScanner` does not store its token argument. For every server URL,
registry URL, token and image path, the scanner it returns has the empty token; the
environment built for the engine sets `GITLAB_TOKEN` and `TRIVY_PASSWORD` to the empty
string; the argument list ends with the image path and carries `--username`,
`gitlab-ci-token`, `--password` and the empty string, not the token, when the image path
contains the registry URL. With the token `s3cr3t` the value `s3cr3t` occurs neither in the
environment nor in the arguments. -/
theorem C11_NewScanner_drops_token (u r t p : String) (environ : List String) (home : String) :
    (NewScanner u r t).GitlabToken = "" ∧
    scanEnv (NewScanner u r t) environ home =
      environ ++ ["GITLAB_TOKEN=", "TRIVY_USERNAME=gitlab-ci-token", "TRIVY_PASSWORD=",
        "TRIVY_NON_SSL=true", "TRIVY_INSECURE=true", "TRIVY_DEBUG=true", "HOME=" ++ home] ∧
    scanArgs (NewScanner u r t) p =
      ["image", "--server", u, "--scanners", "vuln", "--severity", "CRITICAL,HIGH,MEDIUM,LOW",
        "--format", "json", "--quiet"] ++
      (if stringsContains p r then ["--username", "gitlab-ci-token", "--password", ""]
        else []) ++ [p] ∧
    scanEnv (NewScanner "http://trivy:4954" "registry.example.com" "s3cr3t") [] "/root" =
      ["GITLAB_TOKEN=", "TRIVY_USERNAME=gitlab-ci-token", "TRIVY_PASSWORD=",
        "TRIVY_NON_SSL=true", "TRIVY_INSECURE=true", "TRIVY_DEBUG=true", "HOME=/root"] ∧
    scanArgs (NewScanner "http://trivy:4954" "registry.example.com" "s3cr3t")
        "registry.example.com/app:1" =
      ["image", "--server", "http://trivy:4954", "--scanners", "vuln", "--severity",
        "CRITICAL,HIGH,MEDIUM,LOW", "--format", "json", "--quiet", "--username",
        "gitlab-ci-token", "--password", "", "registry.example.com/app:1"] := by
  refine ⟨rfl, ?_, ?_, by decide, by decide⟩
  · simp only [scanEnv, NewScanner]
    rfl
  · simp only [scanArgs, NewScanner]
    split <;> simp

/-! ## Recording after a load -/

/-- C12 at the failing input: `loadStats` accepts the document with the single member
`"totalScans": 3` without error and leaves `dailyScans` as the `nil` map, and the next
`updateScanStats` panics at `dailyScans[dateStr]++`; the same happens for a document that gives
`"dailyScans"` as `null`. In general `updateScanStats` panics exactly when `dailyScans` is the
`nil` map. -/
theorem C12_record_after_load_panics :
    (loadStats Stats.initial exDiskNoDaily false).2 = none ∧
    (loadStats Stats.initial exDiskNoDaily false).1.atomicTotalScans.val = 3 ∧
    (loadStats Stats.initial exDiskNoDaily false).1.dailyScans = none ∧
    updateScanStats (loadStats Stats.initial exDiskNoDaily false).1 exNow exNow = none ∧
    (loadStats Stats.initial exDiskNullDaily false).2 = none ∧
    (loadStats Stats.initial exDiskNullDaily false).1.dailyScans = none ∧
    updateScanStats (loadStats Stats.initial exDiskNullDaily false).1 exNow exNow = none ∧
    (∀ (s : Stats) (t1 t2 : Time), updateScanStats s t1 t2 = none ↔ s.dailyScans = none) := by
  refine ⟨by decide, by decide, rfl, rfl, by decide, rfl, rfl, ?_⟩
  intro s t1 t2
  cases hd : s.dailyScans with
  | none => simp [updateScanStats, hd, GoMap.assign]
  | some d => simp [updateScanStats, hd, GoMap.assign]

/-! ## The timeout middleware around the scan handler -/

theorem ScanImage_responses_length (s : Stats) (body : Option ScanRequest) (cfg : Config)
    (environ : List String) (home : String) (engine : List String → List String → EngineRun)
    (unmarshal : String → Except String ScanResult) (sched : Schedule) (t1 t2 : Time) :
    (ScanImage s body cfg environ home engine unmarshal sched t1 t2).2.length ≤ 1 := by
  cases body with
  | none => simp [ScanImage]
  | some req =>
    simp only [ScanImage]
    generalize ScanImageWithContext _ environ home engine unmarshal req.ImagePath = ret
    generalize (engine _ _).ctxErr = ce
    have hrest : ∀ r : ScanReturn,
        (match scanGoroutine ce sched r with
          | none => ((some s, []) : Option Stats × List Response)
          | some res =>
            if sched.handlerTakesResult then
              if sched.timeoutReached then
                match res with
                | ScanReturn.result _ => (updateScanStats s t1 t2, [])
                | _ => (some s, [])
              else
                match res with
                | ScanReturn.error e => (some s, [Response.scanError e.Error])
                | ScanReturn.result raw =>
                  (updateScanStats s t1 t2, [Response.success req.ImagePath raw])
                | ScanReturn.panic => (none, [])
            else (some s, [])).2.length ≤ 1 := by
      intro r
      cases scanGoroutine ce sched r with
      | none => simp
      | some res =>
        cases res <;> cases sched.handlerTakesResult <;> cases sched.timeoutReached <;> simp
    cases ret with
    | panic => simp
    | result r => exact hrest _
    | error e => exact hrest _

/-- C9 at the failing input: the engine returns a valid report shortly before the deadline,
the scan goroutine delivers it, the handler receives it and reads `timeoutReached = false`;
then the deadline fires before the handler has answered, so the `select` of the middleware
takes `ctx.Done()`. Two responses are written for the request, the handler's 200 and the 408
of the middleware. The other cases behave as the claim says: `ScanImage` never writes more
than one response, a middleware whose `select` takes `done` adds none, and when the context is
already canceled as the engine call returns the only response is the 408. -/
theorem C9_two_responses_when_deadline_races_handler :
    TimeoutMiddleware true
        (ScanImage exStats (some exRequest) exConfig [] "/root" exEngineOk exUnmarshal
          exRaceSchedule exNow exNow) =
      (some exRecorded, [Response.success "alpine:3" exReport, Response.requestTimeout]) ∧
    (∀ (s : Stats) (body : Option ScanRequest) (cfg : Config) (environ : List String)
        (home : String) (engine : List String → List String → EngineRun)
        (unmarshal : String → Except String ScanResult) (sched : Schedule) (t1 t2 : Time),
      (ScanImage s body cfg environ home engine unmarshal sched t1 t2).2.length ≤ 1) ∧
    (∀ next : Option Stats × List Response, TimeoutMiddleware false next = next) ∧
    (∀ (s : Stats) (req : ScanRequest) (cfg : Config) (environ : List String) (home : String)
        (e : GoError) (err : Option String) (output : String)
        (unmarshal : String → Except String ScanResult) (sched : Schedule) (t1 t2 : Time),
      TimeoutMiddleware true
          (ScanImage s (some req) cfg environ home
            (fun _ _ => { ctxErr := some e, err := err, output := output }) unmarshal sched
            t1 t2) =
        (some s, [Response.requestTimeout])) := by
  refine ⟨rfl, ScanImage_responses_length, fun _ => rfl, ?_⟩
  intro s req cfg environ home e err output unmarshal sched t1 t2
  simp only [ScanImage, ScanImageWithContext, scanGoroutine, TimeoutMiddleware,
    Option.isSome_some, Bool.true_or, if_true, List.nil_append]

end ScanHub
